import Mathlib

/-! # Journald launcher: tailer lifecycle

A shallow embedding of `pkg/logs/input/journald/launcher_libsystemd.go`.

The launcher keeps a Go `map[string]*Tailer`; it is embedded as an association
list with the three map operations the code uses (lookup, assignment, delete).
The collaborators (pipeline provider, auditor, tailer, logger, parallel
stopper) are not part of the file; every call made to one of them is appended
to a trace kept in `World`, and what a collaborator answers is read from an
environment `Env` that may depend on everything that happened before.
-/

namespace Journald

/-! ## Data model -/

/-- The fields of `config.LogsConfig` that the launcher reads. -/
structure LogsConfig where
  Type_ : String
  Path : String
  Unit : String
  deriving DecidableEq, Repr

/-- A `config.LogSource`. -/
structure LogSource where
  Config : LogsConfig
  deriving DecidableEq, Repr

/-- Modelled from the spec: the constant `config.JournaldType`, the source type
owned by this launcher (the spec's scenario writes it `journald`). -/
def JournaldType : String := "journald"

/-- The `JournalConfig` literal built by `setupTailer`. -/
structure JournalConfig where
  Units : List String
  Path : String
  deriving DecidableEq, Repr

/-- A `*Tailer`: the object allocated by `NewTailer(config, source, outputChan)`.
`addr` stands for the pointer: two tailers allocated by different calls differ
in it. -/
structure Tailer where
  addr : Nat
  config : JournalConfig
  source : LogSource
  outputChan : Nat
  deriving DecidableEq, Repr

/-- A cursor handed to `Tailer.Start`; `none` is the absent cursor. -/
abbrev Cursor := Option String

/-- The calls the launcher makes to its collaborators. -/
inductive Event where
  | nextPipelineChan (c : Nat)
  | newTailer (t : Tailer)
  | getLastCommittedCursor (identifier : String) (cursor : Cursor)
  | tailerStart (t : Tailer) (cursor : Cursor) (err : Option String)
  | logWarn (err : String)
  | stopperAdd (t : Tailer)
  | tailerStop (t : Tailer)
  deriving DecidableEq, Repr

/-- State outside the launcher: the number of tailers allocated so far and the
collaborator calls made so far, oldest first. -/
structure World where
  allocs : Nat
  trace : List Event
  deriving DecidableEq, Repr

/-- Append one collaborator call to the trace. -/
def World.record (w : World) (e : Event) : World :=
  { w with trace := w.trace ++ [e] }

/-- Append several collaborator calls to the trace. -/
def World.recordAll (w : World) (es : List Event) : World :=
  { w with trace := w.trace ++ es }

/-- The calls made after `w0`, in a world `w` that extends it. -/
def World.since (w0 w : World) : List Event :=
  w.trace.drop w0.trace.length

/-- The Go map `map[string]*Tailer` as an association list. -/
abbrev Registry := List (String × Tailer)

/-- The map read `m[k]`. -/
def Registry.get? (m : Registry) (k : String) : Option Tailer :=
  match m with
  | [] => none
  | (k1, t) :: rest => if k1 = k then some t else Registry.get? rest k

/-- The test `_, exists := m[k]`. -/
def Registry.exists_ (m : Registry) (k : String) : Bool :=
  (Registry.get? m k).isSome

/-- The assignment `m[k] = t`. -/
def Registry.set (m : Registry) (k : String) (t : Tailer) : Registry :=
  match m with
  | [] => [(k, t)]
  | (k1, t1) :: rest => if k1 = k then (k, t) :: rest else (k1, t1) :: Registry.set rest k t

/-- The builtin `delete(m, k)`. -/
def Registry.delete (m : Registry) (k : String) : Registry :=
  m.filter (fun e => decide (e.1 ≠ k))

/-- What the collaborators answer. `World` is the history at the moment of the
call, so an answer may change from one call to the next.

* `NextPipelineChan`: the channel returned by the pipeline provider;
* `GetLastCommittedCursor`: the auditor's cursor for an identifier;
* `tailerStart`: the error returned by `Tailer.Start`, `none` for `nil`;
* `Identifier`: the method `Tailer.Identifier`, whose body is not in the file;
* `rangeOrder`: the order in which `range` visits a map, which Go leaves
  unspecified. -/
structure Env where
  NextPipelineChan : World → Nat
  GetLastCommittedCursor : World → String → Cursor
  tailerStart : World → Tailer → Cursor → Option String
  Identifier : Tailer → String
  rangeOrder : World → Registry → Registry
  rangeOrder_perm : ∀ w m, (rangeOrder w m).Perm m

/-- The launcher: its owned sources and its registry of tailers. -/
structure Launcher where
  sources : List LogSource
  tailers : Registry
  deriving DecidableEq, Repr

/-! ## Operations -/

/-- `strings.Split(s, ",")` on the characters of `s`, for any separator
character: the pieces between separators, empty pieces kept. -/
def splitChars (sep : Char) : List Char → List (List Char)
  | [] => [[]]
  | c :: cs =>
    if c = sep then [] :: splitChars sep cs
    else
      match splitChars sep cs with
      | [] => [[c]]
      | piece :: pieces => (c :: piece) :: pieces

/-- `strings.Split(s, sep)` for a one-character separator. -/
def Split (s : String) (sep : Char) : List String :=
  (splitChars sep s.data).map String.mk

/-- The loop of `New`: append the journald sources to `acc`. -/
def filterJournald : List LogSource → List LogSource → List LogSource
  | [], acc => acc
  | source :: rest, acc =>
    if source.Config.Type_ = JournaldType then filterJournald rest (acc ++ [source])
    else filterJournald rest acc

/-- `New(sources, pipelineProvider, auditor)`. The collaborators are stored,
not called: the world is returned as it was received. -/
def New (sources : List LogSource) (w : World) : Launcher × World :=
  ({ sources := filterJournald sources [], tailers := [] }, w)

/-- The `JournalConfig` of a source: `Units` stays nil for an empty `Unit`. -/
def journalConfig (source : LogSource) : JournalConfig :=
  { Units := if source.Config.Unit ≠ "" then Split source.Config.Unit ',' else [],
    Path := source.Config.Path }

/-- `NewTailer(config, source, outputChan)`, allocated at address `addr`. -/
def NewTailer (config : JournalConfig) (source : LogSource) (outputChan : Nat) (addr : Nat) :
    Tailer :=
  { addr := addr, config := config, source := source, outputChan := outputChan }

/-- The tailer that `setupTailer` allocates for `source` in world `w`. -/
def setupTailer.tailer (env : Env) (source : LogSource) (w : World) : Tailer :=
  NewTailer (journalConfig source) source (env.NextPipelineChan w) w.allocs

/-- The world of `setupTailer` once the tailer is allocated. -/
def setupTailer.allocated (env : Env) (source : LogSource) (w : World) : World :=
  { allocs := w.allocs + 1,
    trace := w.trace ++ [Event.nextPipelineChan (env.NextPipelineChan w),
                         Event.newTailer (setupTailer.tailer env source w)] }

/-- The cursor `setupTailer` obtains from the auditor: the lookup is made under
the identifier of the tailer just allocated. -/
def setupTailer.cursor (env : Env) (source : LogSource) (w : World) : Cursor :=
  env.GetLastCommittedCursor (setupTailer.allocated env source w)
    (env.Identifier (setupTailer.tailer env source w))

/-- The world of `setupTailer` once the cursor is looked up. -/
def setupTailer.looked (env : Env) (source : LogSource) (w : World) : World :=
  (setupTailer.allocated env source w).record
    (Event.getLastCommittedCursor (env.Identifier (setupTailer.tailer env source w))
      (setupTailer.cursor env source w))

/-- The error returned by `tailer.Start(cursor)` inside `setupTailer`. -/
def setupTailer.err (env : Env) (source : LogSource) (w : World) : Option String :=
  env.tailerStart (setupTailer.looked env source w) (setupTailer.tailer env source w)
    (setupTailer.cursor env source w)

/-- `Launcher.setupTailer(source)`: the tailer or the error of its `Start`. -/
def setupTailer (env : Env) (source : LogSource) (w : World) : Except String Tailer × World :=
  let tailer := setupTailer.tailer env source w
  let err := setupTailer.err env source w
  let w4 := (setupTailer.looked env source w).record
    (Event.tailerStart tailer (setupTailer.cursor env source w) err)
  match err with
  | some e => (Except.error e, w4)
  | none => (Except.ok tailer, w4)

/-- The body of the loop of `Launcher.Start`, on the registry and the world. -/
def startBody (env : Env) (st : Registry × World) (source : LogSource) : Registry × World :=
  let identifier := source.Config.Path
  if Registry.exists_ st.1 identifier then st
  else
    match setupTailer env source st.2 with
    | (Except.error e, w1) => (st.1, w1.record (Event.logWarn e))
    | (Except.ok tailer, w1) => (Registry.set st.1 identifier tailer, w1)

/-- The loop of `Launcher.Start` over the owned sources, in listed order. -/
def startLoop (env : Env) (sources : List LogSource) (m : Registry) (w : World) :
    Registry × World :=
  sources.foldl (startBody env) (m, w)

/-- `Launcher.Start()`. -/
def Launcher.Start (env : Env) (l : Launcher) (w : World) : Launcher × World :=
  ({ l with tailers := (startLoop env l.sources l.tailers w).1 },
    (startLoop env l.sources l.tailers w).2)

/-- The body of the loop of `Launcher.Stop` for one entry of the map, on the
registry and the components added to the stopper so far. An entry deleted
before `range` reaches it is not produced. -/
def stopBody (env : Env) (st : Registry × List Tailer) (entry : String × Tailer) :
    Registry × List Tailer :=
  if Registry.exists_ st.1 entry.1 then
    (Registry.delete st.1 (env.Identifier entry.2), st.2 ++ [entry.2])
  else st

/-- The loop of `Launcher.Stop` over the entries in the order `range` visits
them. -/
def stopLoop (env : Env) (order : Registry) (m : Registry) : Registry × List Tailer :=
  order.foldl (stopBody env) (m, [])

/-- Modelled from the spec: `ParallelStopper.Stop()` of `pkg/logs/restart`, one
stop invocation per added component; it returns when all have returned. The
trace lists the invocations in the order of `Add`. -/
def parallelStop (stopper : List Tailer) (w : World) : World :=
  w.recordAll (stopper.map Event.tailerStop)

/-- `Launcher.Stop()`. -/
def Launcher.Stop (env : Env) (l : Launcher) (w : World) : Launcher × World :=
  ({ l with tailers := (stopLoop env (env.rangeOrder w l.tailers) l.tailers).1 },
    parallelStop (stopLoop env (env.rangeOrder w l.tailers) l.tailers).2
      (w.recordAll ((stopLoop env (env.rangeOrder w l.tailers) l.tailers).2.map
        Event.stopperAdd)))

/-- The states a launcher goes through: built by `New`, then driven by `Start`
and `Stop`. -/
inductive Reachable (env : Env) : Launcher × World → Prop where
  | new (sources : List LogSource) (w : World) : Reachable env (New sources w)
  | start {s : Launcher × World} : Reachable env s → Reachable env (s.1.Start env s.2)
  | stop {s : Launcher × World} : Reachable env s → Reachable env (s.1.Stop env s.2)

/-- The tailer's identifier is the path of its journal, which is the key the
launcher registers it under. -/
def IdentifierIsPath (env : Env) : Prop :=
  ∀ t : Tailer, env.Identifier t = t.config.Path

/-! ## Observations on a trace -/

/-- The tailers allocated, in order. -/
def created (tr : List Event) : List Tailer :=
  tr.filterMap (fun e => match e with
    | Event.newTailer t => some t
    | _ => none)

/-- The calls to `Tailer.Start`, in order: tailer and cursor. -/
def startCalls (tr : List Event) : List (Tailer × Cursor) :=
  tr.filterMap (fun e => match e with
    | Event.tailerStart t c _ => some (t, c)
    | _ => none)

/-- The tailers whose `Start` returned no error, in order. -/
def started (tr : List Event) : List Tailer :=
  tr.filterMap (fun e => match e with
    | Event.tailerStart t _ none => some t
    | _ => none)

/-- The identifiers looked up in the auditor, in order. -/
def cursorLookups (tr : List Event) : List String :=
  tr.filterMap (fun e => match e with
    | Event.getLastCommittedCursor i _ => some i
    | _ => none)

/-- The tailers added to a parallel stopper, in order. -/
def stopperAdds (tr : List Event) : List Tailer :=
  tr.filterMap (fun e => match e with
    | Event.stopperAdd t => some t
    | _ => none)

/-- The tailers whose `Stop` was invoked, in order. -/
def stopped (tr : List Event) : List Tailer :=
  tr.filterMap (fun e => match e with
    | Event.tailerStop t => some t
    | _ => none)

/-! ## Example environments -/

/-- An environment in which `Identifier` returns the journal path, the
auditor knows a cursor for `/var/log/a` only, and the journal `/var/log/bad`
cannot be opened. -/
def pathEnv : Env where
  NextPipelineChan := fun w => w.trace.length % 4
  GetLastCommittedCursor := fun _ i => if i = "/var/log/a" then some "X" else none
  tailerStart := fun _ t _ => if t.config.Path = "/var/log/bad" then some "cannot open" else none
  Identifier := fun t => t.config.Path
  rangeOrder := fun _ m => m.reverse
  rangeOrder_perm := fun _ m => List.reverse_perm m

/-- An environment in which `Identifier` puts a prefix before the path. -/
def prefixEnv : Env where
  NextPipelineChan := fun w => w.trace.length % 4
  GetLastCommittedCursor := fun _ _ => none
  tailerStart := fun _ _ _ => none
  Identifier := fun t => "journald:" ++ t.config.Path
  rangeOrder := fun _ m => m
  rangeOrder_perm := fun _ m => List.Perm.refl m

/-- A journald source. -/
def src (path unit : String) : LogSource :=
  { Config := { Type_ := JournaldType, Path := path, Unit := unit } }

/-- The empty world. -/
def World.init : World := { allocs := 0, trace := [] }

/-! ## Definitions used in the statements -/

/-- The four collaborator calls of one `setupTailer`, in order. -/
def setupTailer.events (env : Env) (source : LogSource) (w : World) : List Event :=
  [Event.nextPipelineChan (env.NextPipelineChan w),
   Event.newTailer (setupTailer.tailer env source w),
   Event.getLastCommittedCursor (env.Identifier (setupTailer.tailer env source w))
     (setupTailer.cursor env source w),
   Event.tailerStart (setupTailer.tailer env source w) (setupTailer.cursor env source w)
     (setupTailer.err env source w)]

/-- The registry entry under which `Start` stores a tailer. -/
def entryOf (t : Tailer) : String × Tailer := (t.config.Path, t)

/-- What a run of the loop of `Start` over `srcs` does, from registry `m` and
world `w` to the state `r`, with `d` the collaborator calls it made. -/
structure StartDelta (srcs : List LogSource) (m : Registry) (w : World)
    (r : Registry × World) (d : List Event) : Prop where
  trace : r.2.trace = w.trace ++ d
  allocs : r.2.allocs = w.allocs + (created d).length
  registry : r.1 = m ++ (started d).map entryOf
  sub : (started d).Sublist (created d)
  addrs : ∀ t ∈ created d, w.allocs ≤ t.addr ∧ t.addr < r.2.allocs
  fresh : ∀ t ∈ created d, t.source ∈ srcs ∧ t.config = journalConfig t.source ∧
    Registry.exists_ m t.config.Path = false
  nostop : stopperAdds d = [] ∧ stopped d = []

/-- What holds of the registry in every state of a launcher: no key occurs
twice, a tailer is stored under the path of its journal, it was allocated
before, and no tailer is stored twice. -/
def Inv (m : Registry) (w : World) : Prop :=
  (m.map Prod.fst).Nodup ∧
  (∀ e ∈ m, e.2.config.Path = e.1 ∧ e.2.addr < w.allocs) ∧
  (m.map (fun e => e.2.addr)).Nodup

/-- The sources of the spec's scenario, with a source of another type. -/
def exampleSources : List LogSource :=
  [src "/var/log/a" "", { Config := { Type_ := "file", Path := "/f", Unit := "" } },
   src "/var/log/b" "x,y"]

/-- A launcher built on `exampleSources` and started once. -/
def runningState (env : Env) : Launcher × World :=
  (New exampleSources World.init).1.Start env (New exampleSources World.init).2

/-- Two journald sources, the path of the second being the first with a
prefix. -/
def clashSources : List LogSource :=
  [src "x" "", src "journald:x" ""]

/-- The state after `n` calls of `Start` in a row. -/
def startTimes (env : Env) : Nat → Launcher × World → Launcher × World
  | 0, s => s
  | n + 1, s => (startTimes env n s).1.Start env (startTimes env n s).2

/-- A source whose journal cannot be opened in `pathEnv`. -/
def badSource : LogSource := src "/var/log/bad" ""

/-- A source whose tailer starts in `pathEnv`. -/
def goodSource : LogSource := src "/var/log/a" ""

/-- A call on the launcher: `Start()` or `Stop()`. -/
inductive Op where
  | start
  | stop
  deriving DecidableEq, Repr

/-- One call on the launcher. -/
def step (env : Env) (s : Launcher × World) : Op → Launcher × World
  | Op.start => s.1.Start env s.2
  | Op.stop => s.1.Stop env s.2

/-- A sequence of calls on the launcher, first call first. -/
def run (env : Env) (ops : List Op) (s : Launcher × World) : Launcher × World :=
  ops.foldl (step env) s

/-- The sources for which a trace allocates a tailer, in order: the sources
`setupTailer` was invoked for. -/
def attempted (tr : List Event) : List LogSource :=
  (created tr).map (fun t => t.source)

/-- The channels requested from the pipeline provider, in order. -/
def chanRequests (tr : List Event) : List Nat :=
  tr.filterMap (fun e => match e with
    | Event.nextPipelineChan c => some c
    | _ => none)

/-- Go's `strings.Join(elems, sep)`. -/
def Join : List String → String → String
  | [], _ => ""
  | [a], _ => a
  | a :: b :: rest, sep => a ++ sep ++ Join (b :: rest) sep

/-- An environment in which the `Start` of the first two tailers allocated
fails and every later one succeeds. -/
def flakyEnv : Env where
  NextPipelineChan := fun w => w.allocs
  GetLastCommittedCursor := fun _ _ => none
  tailerStart := fun _ t _ => if t.addr < 2 then some "journal busy" else none
  Identifier := fun t => t.config.Path
  rangeOrder := fun _ m => m
  rangeOrder_perm := fun _ m => List.Perm.refl m

/-- An environment in which `Identifier` puts a prefix before the path and the
auditor holds a cursor under the bare path `/var/log/a`. -/
def prefixStoreEnv : Env where
  NextPipelineChan := fun w => w.trace.length % 4
  GetLastCommittedCursor := fun _ i => if i = "/var/log/a" then some "X" else none
  tailerStart := fun _ _ _ => none
  Identifier := fun t => "journald:" ++ t.config.Path
  rangeOrder := fun _ m => m
  rangeOrder_perm := fun _ m => List.Perm.refl m

/-- An environment in which the `Start` of the first tailer allocated fails
and every later one succeeds. -/
def firstFailsEnv : Env where
  NextPipelineChan := fun w => w.allocs
  GetLastCommittedCursor := fun _ _ => none
  tailerStart := fun _ t _ => if t.addr < 1 then some "journal busy" else none
  Identifier := fun t => t.config.Path
  rangeOrder := fun _ m => m
  rangeOrder_perm := fun _ m => List.Perm.refl m

/-- Three journald sources: two of the path `/var/log/p`, one of the path
`/var/log/q`. -/
def tripleSources : List LogSource :=
  [src "/var/log/p" "", src "/var/log/p" "ssh", src "/var/log/q" ""]

/-- Two journald sources of the same path, with different unit filters. -/
def twinSources : List LogSource :=
  [src "/var/log/a" "", src "/var/log/a" "ssh"]

/-- `Join` on the characters of the strings. -/
def joinChars (sep : List Char) : List (List Char) → List Char
  | [] => []
  | [a] => a
  | a :: b :: rest => a ++ sep ++ joinChars sep (b :: rest)

end Journald

/-! # Autodiscovery providers: templates from a map

A shallow embedding of `pkg/autodiscovery/providers/utils.go`. The functions
of `encoding/json` and of `fmt` that the file calls are taken as parameters
(`JsonLib`); a Go result pair `(value, error)` is a pair whose second
component is `none` for a nil error.
-/

namespace Providers

/-- An `autodiscovery.Data`: a byte string. -/
abbrev Data := String

/-- The fields of `autodiscovery.Config` that `buildTemplates` sets. -/
structure Config where
  Name : String
  InitConfig : Data
  Instances : List Data
  ADIdentifiers : List String
  deriving DecidableEq, Repr

/-- A value that `json.Unmarshal` stores in an `interface{}`. A number is
kept as the text of its literal; an object is a `map[string]interface{}`. -/
inductive Json where
  | null
  | bool (b : Bool)
  | number (literal : String)
  | string (s : String)
  | array (elems : List Json)
  | object (fields : List (String × Json))

/-- The library functions called by the file:

* `UnmarshalValues`: `json.Unmarshal` into a `[]interface{}`;
* `UnmarshalStrings`: `json.Unmarshal` into a `[]string`;
* `Marshal`: the bytes returned by `json.Marshal`, whose error the code drops;
* `formatValue`: the text `fmt` prints for the verb `%v`. -/
structure JsonLib where
  UnmarshalValues : String → Except String (List Json)
  UnmarshalStrings : String → Except String (List String)
  Marshal : Json → Data
  formatValue : Json → String

/-- The constant `instancePath`. -/
def instancePath : String := "instances"

/-- The constant `checkNamePath`. -/
def checkNamePath : String := "check_names"

/-- The constant `initConfigPath`. -/
def initConfigPath : String := "init_configs"

/-- The type switch `case map[string]interface{}`. -/
def Json.isObject : Json → Bool
  | Json.object _ => true
  | _ => false

/-- The loop of `parseJSONValue` over the decoded values, `result` being the
slice built so far. -/
def parseJSONValue.loop (lib : JsonLib) : List Json → List Data → List Data × Option String
  | [], result => (result, none)
  | r :: rest, result =>
    match r with
    | Json.object _ => parseJSONValue.loop lib rest (result ++ [lib.Marshal r])
    | _ =>
      ([], some ("found non JSON object type, value is: '" ++ lib.formatValue r ++ "'"))

/-- `parseJSONValue(value)`. -/
def parseJSONValue (lib : JsonLib) (value : String) : List Data × Option String :=
  if value = "" then ([], some "Value is empty")
  else
    match lib.UnmarshalValues value with
    | Except.error err => ([], some ("Failed to unmarshal JSON: " ++ err))
    | Except.ok rawRes => parseJSONValue.loop lib rawRes []

/-- `parseCheckNames(names)`. -/
def parseCheckNames (lib : JsonLib) (names : String) : List String × Option String :=
  if names = "" then ([], some "check_names is empty")
  else
    match lib.UnmarshalStrings names with
    | Except.error err => ([], some err)
    | Except.ok res => (res, none)

/-- The template built by `buildTemplates` for the index `idx`. The default of
the reads stands for the index panic of Go, which the length check of
`buildTemplates` excludes. -/
def templateAt (key : String) (checkNames : List String) (initConfigs instances : List Data)
    (idx : Nat) : Config :=
  { Name := checkNames.getD idx "",
    InitConfig := initConfigs.getD idx "",
    Instances := [instances.getD idx ""],
    ADIdentifiers := [key] }

/-- `buildTemplates(key, checkNames, initConfigs, instances)`. -/
def buildTemplates (key : String) (checkNames : List String) (initConfigs instances : List Data) :
    List Config :=
  if checkNames.length ≠ initConfigs.length ∨ checkNames.length ≠ instances.length then []
  else
    (List.range checkNames.length).foldl
      (fun templates idx => templates ++ [templateAt key checkNames initConfigs instances idx]) []

/-- `extractTemplatesFromMap(key, input, prefix)`; `input` is the map, read
only through lookups, and `pfx` the prefix. -/
def extractTemplatesFromMap (lib : JsonLib) (key : String) (input : String → Option String)
    (pfx : String) : List Config × Option String :=
  match input (pfx ++ checkNamePath) with
  | none => ([], none)
  | some value =>
    match parseCheckNames lib value with
    | (_, some err) => ([], some ("in " ++ checkNamePath ++ ": " ++ err))
    | (checkNames, none) =>
      match input (pfx ++ initConfigPath) with
      | none => ([], some "missing init_configs key")
      | some value =>
        match parseJSONValue lib value with
        | (_, some err) => ([], some ("in " ++ initConfigPath ++ ": " ++ err))
        | (initConfigs, none) =>
          match input (pfx ++ instancePath) with
          | none => ([], some "missing instances key")
          | some value =>
            match parseJSONValue lib value with
            | (_, some err) => ([], some ("in " ++ instancePath ++ ": " ++ err))
            | (instances, none) => (buildTemplates key checkNames initConfigs instances, none)

/-- A JSON library that answers as `encoding/json` does on a few documents,
for the examples: arrays of objects, an array with a number, the empty array,
the literal `null` (which `json.Unmarshal` accepts for a slice, leaving it
nil and returning no error), an object (a type error) and a truncated array
(a syntax error). The examples use no other document; on those it answers as
on the truncated array. -/
def toyJson : JsonLib where
  UnmarshalValues := fun s =>
    if s = "[\x7b\x7d]" then Except.ok [Json.object []]
    else if s = "[\x7b\x7d,\x7b\x7d]" then Except.ok [Json.object [], Json.object []]
    else if s = "[\x7b\x7d,1]" then Except.ok [Json.object [], Json.number "1"]
    else if s = "[]" then Except.ok []
    else if s = "null" then Except.ok []
    else if s = "\x7b\x7d" then
      Except.error "json: cannot unmarshal object into Go value of type []interface \x7b\x7d"
    else Except.error "unexpected end of JSON input"
  UnmarshalStrings := fun s =>
    if s = "[\"redis\"]" then Except.ok ["redis"]
    else if s = "[\"redis\",\"nginx\"]" then Except.ok ["redis", "nginx"]
    else Except.error "unexpected end of JSON input"
  Marshal := fun j =>
    match j with
    | Json.object [] => "\x7b\x7d"
    | _ => "null"
  formatValue := fun j =>
    match j with
    | Json.number literal => literal
    | _ => "<nil>"

/-- A map of docker labels with the three template keys. -/
def exampleLabels (k : String) : Option String :=
  if k = "com.datadoghq.ad.check_names" then some "[\"redis\"]"
  else if k = "com.datadoghq.ad.init_configs" then some "[\x7b\x7d]"
  else if k = "com.datadoghq.ad.instances" then some "[\x7b\x7d]"
  else none

/-- The Go map with the given entries, as its lookup. -/
def mapOf (entries : List (String × String)) (k : String) : Option String :=
  (entries.find? (fun e => decide (e.1 = k))).map Prod.snd

end Providers

namespace Journald

/-! ## The registry as a map -/

theorem Registry.exists_iff (m : Registry) (k : String) :
    Registry.exists_ m k = true ↔ k ∈ m.map Prod.fst := by
  induction m with
  | nil => simp [Registry.exists_, Registry.get?]
  | cons e rest ih =>
    obtain ⟨k1, t⟩ := e
    by_cases h : k1 = k
    · simp [Registry.exists_, Registry.get?, h]
    · have h2 : ¬ k = k1 := fun h3 => h h3.symm
      simpa [Registry.exists_, Registry.get?, h, h2] using ih

theorem Registry.exists_false_iff (m : Registry) (k : String) :
    Registry.exists_ m k = false ↔ k ∉ m.map Prod.fst := by
  rw [← Registry.exists_iff]
  simp

theorem Registry.set_of_absent (m : Registry) (k : String) (t : Tailer)
    (h : Registry.exists_ m k = false) : Registry.set m k t = m ++ [(k, t)] := by
  induction m with
  | nil => simp [Registry.set]
  | cons e rest ih =>
    obtain ⟨k1, t1⟩ := e
    by_cases h1 : k1 = k
    · simp [Registry.exists_, Registry.get?, h1] at h
    · have h2 : Registry.exists_ rest k = false := by
        simpa [Registry.exists_, Registry.get?, h1] using h
      simp [Registry.set, h1, ih h2]

theorem Registry.get?_of_mem (m : Registry) (k : String) (t : Tailer)
    (hn : (m.map Prod.fst).Nodup) (h : (k, t) ∈ m) : Registry.get? m k = some t := by
  induction m with
  | nil => simp at h
  | cons e rest ih =>
    obtain ⟨k1, t1⟩ := e
    simp only [List.map_cons, List.nodup_cons] at hn
    rcases List.mem_cons.mp h with h1 | h1
    · cases h1
      simp [Registry.get?]
    · have hk : k1 ≠ k := by
        intro h2
        apply hn.1
        rw [h2]
        exact List.mem_map_of_mem Prod.fst h1
      simp [Registry.get?, hk, ih hn.2 h1]

theorem Registry.get?_none (m : Registry) (k : String)
    (h : Registry.exists_ m k = false) : Registry.get? m k = none := by
  simpa [Registry.exists_] using h

theorem Registry.exists_append (m n : Registry) (k : String) :
    Registry.exists_ (m ++ n) k = (Registry.exists_ m k || Registry.exists_ n k) := by
  rw [Bool.eq_iff_iff]
  simp [Registry.exists_iff, -List.mem_map]

/-! ## Traces -/

theorem World.since_of_trace (w0 w : World) (d : List Event) (h : w.trace = w0.trace ++ d) :
    World.since w0 w = d := by
  simp [World.since, h]

theorem World.since_self (w : World) : World.since w w = [] := by
  simp [World.since]

@[simp] theorem created_append (a b : List Event) : created (a ++ b) = created a ++ created b := by
  simp [created, List.filterMap_append]

@[simp] theorem started_append (a b : List Event) : started (a ++ b) = started a ++ started b := by
  simp [started, List.filterMap_append]

@[simp] theorem startCalls_append (a b : List Event) :
    startCalls (a ++ b) = startCalls a ++ startCalls b := by
  simp [startCalls, List.filterMap_append]

@[simp] theorem cursorLookups_append (a b : List Event) :
    cursorLookups (a ++ b) = cursorLookups a ++ cursorLookups b := by
  simp [cursorLookups, List.filterMap_append]

@[simp] theorem stopperAdds_append (a b : List Event) :
    stopperAdds (a ++ b) = stopperAdds a ++ stopperAdds b := by
  simp [stopperAdds, List.filterMap_append]

@[simp] theorem stopped_append (a b : List Event) : stopped (a ++ b) = stopped a ++ stopped b := by
  simp [stopped, List.filterMap_append]

theorem stopperAdds_map_add (ts : List Tailer) : stopperAdds (ts.map Event.stopperAdd) = ts := by
  induction ts with
  | nil => rfl
  | cons t rest ih =>
    simp only [List.map_cons]
    rw [show Event.stopperAdd t :: rest.map Event.stopperAdd
      = [Event.stopperAdd t] ++ rest.map Event.stopperAdd from rfl, stopperAdds_append, ih]
    rfl

theorem stopperAdds_map_stop (ts : List Tailer) : stopperAdds (ts.map Event.tailerStop) = [] := by
  induction ts with
  | nil => rfl
  | cons t rest ih =>
    simp only [List.map_cons]
    rw [show Event.tailerStop t :: rest.map Event.tailerStop
      = [Event.tailerStop t] ++ rest.map Event.tailerStop from rfl, stopperAdds_append, ih]
    rfl

theorem stopped_map_stop (ts : List Tailer) : stopped (ts.map Event.tailerStop) = ts := by
  induction ts with
  | nil => rfl
  | cons t rest ih =>
    simp only [List.map_cons]
    rw [show Event.tailerStop t :: rest.map Event.tailerStop
      = [Event.tailerStop t] ++ rest.map Event.tailerStop from rfl, stopped_append, ih]
    rfl

theorem stopped_map_add (ts : List Tailer) : stopped (ts.map Event.stopperAdd) = [] := by
  induction ts with
  | nil => rfl
  | cons t rest ih =>
    simp only [List.map_cons]
    rw [show Event.stopperAdd t :: rest.map Event.stopperAdd
      = [Event.stopperAdd t] ++ rest.map Event.stopperAdd from rfl, stopped_append, ih]
    rfl

/-! ## `setupTailer` -/

theorem setupTailer_world (env : Env) (source : LogSource) (w : World) :
    (setupTailer env source w).2
      = { allocs := w.allocs + 1, trace := w.trace ++ setupTailer.events env source w } := by
  unfold setupTailer
  cases h : setupTailer.err env source w <;>
    simp [setupTailer.looked, setupTailer.allocated, World.record, setupTailer.events, h]

theorem setupTailer_result (env : Env) (source : LogSource) (w : World) :
    (setupTailer env source w).1
      = match setupTailer.err env source w with
        | some e => Except.error e
        | none => Except.ok (setupTailer.tailer env source w) := by
  unfold setupTailer
  cases h : setupTailer.err env source w <;> simp

/-- The three ways one round of the loop of `Start` can go: the source is
skipped, its set-up fails, or its tailer is registered. -/
theorem startBody_cases (env : Env) (st : Registry × World) (source : LogSource) :
    (Registry.exists_ st.1 source.Config.Path = true ∧ startBody env st source = st) ∨
    (Registry.exists_ st.1 source.Config.Path = false ∧
      ∃ e, setupTailer.err env source st.2 = some e ∧
        startBody env st source
          = (st.1, { allocs := st.2.allocs + 1,
                     trace := st.2.trace ++ (setupTailer.events env source st.2
                       ++ [Event.logWarn e]) })) ∨
    (Registry.exists_ st.1 source.Config.Path = false ∧
      setupTailer.err env source st.2 = none ∧
        startBody env st source
          = (st.1 ++ [(source.Config.Path, setupTailer.tailer env source st.2)],
             { allocs := st.2.allocs + 1,
               trace := st.2.trace ++ setupTailer.events env source st.2 })) := by
  by_cases hex : Registry.exists_ st.1 source.Config.Path = true
  · left
    exact ⟨hex, by simp [startBody, hex]⟩
  · right
    have hex2 : Registry.exists_ st.1 source.Config.Path = false := by simpa using hex
    have hw := setupTailer_world env source st.2
    have hr := setupTailer_result env source st.2
    cases herr : setupTailer.err env source st.2 with
    | some e =>
      left
      refine ⟨hex2, e, rfl, ?_⟩
      rw [herr] at hr
      simp only [startBody, hex2]
      rcases hs : setupTailer env source st.2 with ⟨r, w1⟩
      rw [hs] at hw hr
      simp only at hw hr
      subst hw hr
      simp [World.record]
    | none =>
      right
      refine ⟨hex2, rfl, ?_⟩
      rw [herr] at hr
      simp only [startBody, hex2]
      rcases hs : setupTailer env source st.2 with ⟨r, w1⟩
      rw [hs] at hw hr
      simp only at hw hr
      subst hw hr
      simp [Registry.set_of_absent _ _ _ hex2]

/-! ## The loop of `Start` -/

theorem startDelta_nil (m : Registry) (w : World) : StartDelta [] m w (m, w) [] where
  trace := by simp
  allocs := by simp [created]
  registry := by simp [started]
  sub := by simp [started, created]
  addrs := by simp [created]
  fresh := by simp [created]
  nostop := by simp [stopperAdds, stopped]

theorem startDelta_comp {s1 s2 : List LogSource} {m : Registry} {w : World}
    {r1 r2 : Registry × World} {d1 d2 : List Event}
    (h1 : StartDelta s1 m w r1 d1) (h2 : StartDelta s2 r1.1 r1.2 r2 d2) :
    StartDelta (s1 ++ s2) m w r2 (d1 ++ d2) where
  trace := by rw [h2.trace, h1.trace, List.append_assoc]
  allocs := by
    rw [h2.allocs, h1.allocs, created_append, List.length_append]
    omega
  registry := by
    rw [h2.registry, h1.registry, started_append, List.map_append, List.append_assoc]
  sub := by
    rw [started_append, created_append]
    exact List.Sublist.append h1.sub h2.sub
  addrs := by
    intro t ht
    rw [created_append, List.mem_append] at ht
    have ha1 := h1.allocs
    have ha2 := h2.allocs
    rcases ht with ht | ht
    · have := h1.addrs t ht
      omega
    · have := h2.addrs t ht
      omega
  fresh := by
    intro t ht
    rw [created_append, List.mem_append] at ht
    rcases ht with ht | ht
    · obtain ⟨a, b, c⟩ := h1.fresh t ht
      exact ⟨List.mem_append_left _ a, b, c⟩
    · obtain ⟨a, b, c⟩ := h2.fresh t ht
      refine ⟨List.mem_append_right _ a, b, ?_⟩
      rw [h1.registry, Registry.exists_append] at c
      simpa using (Bool.or_eq_false_iff.mp c).1
  nostop := by
    rw [stopperAdds_append, stopped_append, h1.nostop.1, h1.nostop.2, h2.nostop.1, h2.nostop.2]
    simp

theorem created_events (env : Env) (source : LogSource) (w : World) :
    created (setupTailer.events env source w) = [setupTailer.tailer env source w] := by
  simp [created, setupTailer.events, List.filterMap_cons]

theorem started_events (env : Env) (source : LogSource) (w : World) :
    started (setupTailer.events env source w)
      = match setupTailer.err env source w with
        | some _ => []
        | none => [setupTailer.tailer env source w] := by
  cases h : setupTailer.err env source w <;>
    simp [started, setupTailer.events, List.filterMap_cons, h]

theorem startBody_delta (env : Env) (st : Registry × World) (source : LogSource) :
    ∃ d, StartDelta [source] st.1 st.2 (startBody env st source) d := by
  rcases startBody_cases env st source with ⟨_, hb⟩ | ⟨hex, e, he, hb⟩ | ⟨hex, he, hb⟩
  · rw [hb]
    exact ⟨[], { startDelta_nil st.1 st.2 with fresh := by simp [created] }⟩
  · rw [hb]
    refine ⟨setupTailer.events env source st.2 ++ [Event.logWarn e], ?_⟩
    have hc : created (setupTailer.events env source st.2 ++ [Event.logWarn e])
        = [setupTailer.tailer env source st.2] := by
      rw [created_append, created_events]; simp [created]
    have hs : started (setupTailer.events env source st.2 ++ [Event.logWarn e]) = [] := by
      rw [started_append, started_events, he]; simp [started]
    constructor
    · rfl
    · rw [hc]; rfl
    · rw [hs]; simp
    · rw [hs]; simp
    · intro t ht
      rw [hc] at ht
      simp only [List.mem_singleton] at ht
      subst ht
      simp [setupTailer.tailer, NewTailer]
    · intro t ht
      rw [hc] at ht
      simp only [List.mem_singleton] at ht
      subst ht
      simpa [setupTailer.tailer, NewTailer, journalConfig] using hex
    · simp [stopperAdds, stopped, setupTailer.events, List.filterMap_cons]
  · rw [hb]
    refine ⟨setupTailer.events env source st.2, ?_⟩
    have hc := created_events env source st.2
    have hs : started (setupTailer.events env source st.2)
        = [setupTailer.tailer env source st.2] := by
      rw [started_events, he]
    constructor
    · rfl
    · rw [hc]; rfl
    · rw [hs]; simp [entryOf, setupTailer.tailer, NewTailer, journalConfig]
    · rw [hs, hc]
    · intro t ht
      rw [hc] at ht
      simp only [List.mem_singleton] at ht
      subst ht
      simp [setupTailer.tailer, NewTailer]
    · intro t ht
      rw [hc] at ht
      simp only [List.mem_singleton] at ht
      subst ht
      simpa [setupTailer.tailer, NewTailer, journalConfig] using hex
    · simp [stopperAdds, stopped, setupTailer.events, List.filterMap_cons]

theorem startLoop_cons (env : Env) (source : LogSource) (rest : List LogSource)
    (m : Registry) (w : World) :
    startLoop env (source :: rest) m w
      = startLoop env rest (startBody env (m, w) source).1 (startBody env (m, w) source).2 := by
  simp [startLoop]

theorem startLoop_append (env : Env) (a b : List LogSource) (m : Registry) (w : World) :
    startLoop env (a ++ b) m w
      = startLoop env b (startLoop env a m w).1 (startLoop env a m w).2 := by
  simp [startLoop]

theorem startLoop_delta (env : Env) (srcs : List LogSource) (m : Registry) (w : World) :
    ∃ d, StartDelta srcs m w (startLoop env srcs m w) d := by
  induction srcs generalizing m w with
  | nil => exact ⟨[], startDelta_nil m w⟩
  | cons source rest ih =>
    obtain ⟨d1, h1⟩ := startBody_delta env (m, w) source
    obtain ⟨d2, h2⟩ := ih (startBody env (m, w) source).1 (startBody env (m, w) source).2
    rw [startLoop_cons]
    exact ⟨d1 ++ d2, startDelta_comp h1 h2⟩

/-- The calls made by the loop of `Start` are the ones recorded since it
began. -/
theorem startLoop_since (env : Env) (srcs : List LogSource) (m : Registry) (w : World) :
    StartDelta srcs m w (startLoop env srcs m w) (World.since w (startLoop env srcs m w).2) := by
  obtain ⟨d, h⟩ := startLoop_delta env srcs m w
  rw [World.since_of_trace _ _ d h.trace]
  exact h

/-! ## The invariant of the registry -/

theorem inv_nil (w : World) : Inv [] w := by
  simp [Inv]

theorem inv_sublist {m n : Registry} {w w1 : World} (h : Inv m w) (hs : n.Sublist m)
    (ha : w.allocs ≤ w1.allocs) : Inv n w1 := by
  obtain ⟨h1, h2, h3⟩ := h
  refine ⟨h1.sublist (hs.map _), ?_, h3.sublist (hs.map _)⟩
  intro e he
  have := h2 e (hs.subset he)
  exact ⟨this.1, by omega⟩

theorem startBody_inv (env : Env) (st : Registry × World) (source : LogSource)
    (h : Inv st.1 st.2) : Inv (startBody env st source).1 (startBody env st source).2 := by
  rcases startBody_cases env st source with ⟨_, hb⟩ | ⟨_, e, _, hb⟩ | ⟨hex, _, hb⟩
  · rw [hb]; exact h
  · rw [hb]
    exact inv_sublist h (List.Sublist.refl _) (by simp)
  · rw [hb]
    obtain ⟨h1, h2, h3⟩ := h
    have hk := (Registry.exists_false_iff _ _).mp hex
    refine ⟨?_, ?_, ?_⟩
    · rw [List.map_append, List.nodup_append]
      refine ⟨h1, by simp, ?_⟩
      intro a ha hb2
      simp only [List.map_cons, List.map_nil, List.mem_singleton] at hb2
      subst hb2
      exact hk ha
    · intro e he
      rcases List.mem_append.mp he with he | he
      · have := h2 e he
        exact ⟨this.1, by simp only; omega⟩
      · simp only [List.mem_singleton] at he
        subst he
        simp [setupTailer.tailer, NewTailer, journalConfig]
    · rw [List.map_append, List.nodup_append]
      refine ⟨h3, by simp, ?_⟩
      intro a ha hb2
      simp only [List.map_cons, List.map_nil, List.mem_singleton] at hb2
      subst hb2
      obtain ⟨e, he, hea⟩ := List.mem_map.mp ha
      have := (h2 e he).2
      simp only [setupTailer.tailer, NewTailer] at hea
      omega

theorem startLoop_inv (env : Env) (srcs : List LogSource) (m : Registry) (w : World)
    (h : Inv m w) : Inv (startLoop env srcs m w).1 (startLoop env srcs m w).2 := by
  induction srcs generalizing m w with
  | nil => exact h
  | cons source rest ih =>
    rw [startLoop_cons]
    exact ih _ _ (startBody_inv env (m, w) source h)

/-! ## The loop of `Stop` -/

theorem stopBody_sublist (env : Env) (st : Registry × List Tailer) (entry : String × Tailer) :
    (stopBody env st entry).1.Sublist st.1 := by
  unfold stopBody
  split
  · exact List.filter_sublist _
  · exact List.Sublist.refl _

theorem stopFold_sublist (env : Env) (order : Registry) (st : Registry × List Tailer) :
    (order.foldl (stopBody env) st).1.Sublist st.1 := by
  induction order generalizing st with
  | nil => exact List.Sublist.refl _
  | cons e rest ih =>
    rw [List.foldl_cons]
    exact (ih _).trans (stopBody_sublist env st e)

/-- When every entry is stored under the identifier of its tailer, the loop of
`Stop` visits every entry, adds its tailer to the stopper and leaves the
registry empty, whatever the order of the visit. -/
theorem stopFold_matching (env : Env) (pending m : Registry) (stopper : List Tailer)
    (hperm : pending.Perm m) (hnd : (pending.map Prod.fst).Nodup)
    (hid : ∀ e ∈ pending, env.Identifier e.2 = e.1) :
    pending.foldl (stopBody env) (m, stopper) = ([], stopper ++ pending.map Prod.snd) := by
  induction pending generalizing m stopper with
  | nil =>
    have : m = [] := hperm.symm.eq_nil
    simp [this]
  | cons e rest ih =>
    simp only [List.map_cons, List.nodup_cons] at hnd
    have hmem : e ∈ m := hperm.subset (List.mem_cons_self _ _)
    have hex : Registry.exists_ m e.1 = true :=
      (Registry.exists_iff m e.1).mpr (List.mem_map_of_mem Prod.fst hmem)
    have hide : env.Identifier e.2 = e.1 := hid e (List.mem_cons_self _ _)
    have hrest : rest.filter (fun x => decide (x.1 ≠ e.1)) = rest := by
      rw [List.filter_eq_self]
      intro x hx
      have : x.1 ≠ e.1 := by
        intro h
        apply hnd.1
        rw [← h]
        exact List.mem_map_of_mem Prod.fst hx
      simpa using this
    have hperm2 : rest.Perm (Registry.delete m e.1) := by
      have h1 := hperm.filter (fun x => decide (x.1 ≠ e.1))
      rw [List.filter_cons] at h1
      simp only [ne_eq, not_true_eq_false, decide_False, Bool.false_eq_true, if_false] at h1
      rw [hrest] at h1
      exact h1
    rw [List.foldl_cons]
    have hstep : stopBody env (m, stopper) e = (Registry.delete m e.1, stopper ++ [e.2]) := by
      simp [stopBody, hex, hide]
    rw [hstep, ih _ _ hperm2 hnd.2 (fun x hx => hid x (List.mem_cons_of_mem _ hx))]
    simp

theorem inv_identifier {env : Env} {m : Registry} {w : World} (hid : IdentifierIsPath env)
    (h : Inv m w) : ∀ e ∈ m, env.Identifier e.2 = e.1 := by
  intro e he
  rw [hid e.2]
  exact (h.2.1 e he).1

/-- What `Stop` computes in a state that satisfies the invariant, when the
identifier of a tailer is the path of its journal. -/
theorem stopLoop_of_inv (env : Env) (hid : IdentifierIsPath env) (m : Registry) (w : World)
    (h : Inv m w) :
    stopLoop env (env.rangeOrder w m) m = ([], (env.rangeOrder w m).map Prod.snd) := by
  have hp := env.rangeOrder_perm w m
  have := stopFold_matching env (env.rangeOrder w m) m [] hp
    ((hp.map Prod.fst).nodup_iff.mpr h.1)
    (fun e he => inv_identifier hid h e (hp.subset he))
  simpa [stopLoop] using this

theorem reachable_inv (env : Env) (s : Launcher × World) (h : Reachable env s) :
    Inv s.1.tailers s.2 := by
  induction h with
  | new sources w => exact inv_nil w
  | start _ ih => exact startLoop_inv env _ _ _ ih
  | stop _ ih =>
    exact inv_sublist ih (stopFold_sublist env _ _) (Nat.le_refl _)

/-! ## Example states -/

theorem runningState_reachable (env : Env) : Reachable env (runningState env) :=
  Reachable.start (Reachable.new exampleSources World.init)

theorem pathEnv_identifier : IdentifierIsPath pathEnv :=
  fun _ => rfl

/-- In a state that satisfies the invariant, `Stop` leaves no entry, when the
identifier of a tailer is the path of its journal. -/
theorem Stop_tailers_of_inv (env : Env) (hid : IdentifierIsPath env) (l : Launcher) (w : World)
    (h : Inv l.tailers w) : (l.Stop env w).1.tailers = [] := by
  have := stopLoop_of_inv env hid l.tailers w h
  simp [Launcher.Stop, this]

/-! ## Claims -/

/-- C1 (amended): in every state reachable from `New` by `Start` and `Stop`, `Stop`
leaves the registry empty, provided `Tailer.Identifier` returns the path the
tailer was registered under (the key of `Start` is `source.Config.Path`, the
key deleted by `Stop` is `tailer.Identifier()`). -/
theorem Stop_empties_registry (env : Env) (hid : IdentifierIsPath env)
    (s : Launcher × World) (h : Reachable env s) :
    (s.1.Stop env s.2).1.tailers = [] := by
  exact Stop_tailers_of_inv env hid s.1 s.2 (reachable_inv env s h)

theorem Stop_empties_registry_witness :
    IdentifierIsPath pathEnv ∧ Reachable pathEnv (runningState pathEnv) ∧
    (runningState pathEnv).1.tailers.length = 2 ∧
    ((runningState pathEnv).1.Stop pathEnv (runningState pathEnv).2).1.tailers = [] :=
  ⟨pathEnv_identifier, runningState_reachable pathEnv, by decide,
    Stop_empties_registry pathEnv pathEnv_identifier (runningState pathEnv)
      (runningState_reachable pathEnv)⟩

/-- The claim that `Stop` always empties the registry fails when
`Tailer.Identifier` does not return the key the tailer is registered under:
in a reachable state with two tailers and an identifier that carries a
prefix, `delete` misses both keys and `Stop` leaves the registry as it was. -/
theorem Stop_keeps_entries_of_other_identifier :
    Reachable prefixEnv (runningState prefixEnv) ∧
    ((runningState prefixEnv).1.Stop prefixEnv (runningState prefixEnv).2).1.tailers ≠ [] ∧
    ((runningState prefixEnv).1.Stop prefixEnv (runningState prefixEnv).2).1.tailers
      = (runningState prefixEnv).1.tailers ∧
    (runningState prefixEnv).1.tailers.length = 2 :=
  ⟨runningState_reachable prefixEnv, by decide, by decide, by decide⟩

/-- The calls `Stop` makes in a state that satisfies the invariant: every
tailer of the registry is added to the stopper, then every added tailer is
stopped. -/
theorem Stop_since (env : Env) (hid : IdentifierIsPath env) (s : Launcher × World)
    (h : Inv s.1.tailers s.2) :
    World.since s.2 (s.1.Stop env s.2).2
      = ((env.rangeOrder s.2 s.1.tailers).map Prod.snd).map Event.stopperAdd
        ++ ((env.rangeOrder s.2 s.1.tailers).map Prod.snd).map Event.tailerStop := by
  apply World.since_of_trace
  have := stopLoop_of_inv env hid s.1.tailers s.2 h
  simp [Launcher.Stop, this, parallelStop, World.recordAll]

theorem inv_nodup_tailers {m : Registry} {w : World} (h : Inv m w) :
    (m.map Prod.snd).Nodup := by
  have h3 := h.2.2
  rw [show (fun e : String × Tailer => e.2.addr) = (fun t : Tailer => t.addr) ∘ Prod.snd from rfl,
    ← List.map_map] at h3
  exact List.Nodup.of_map _ h3

/-- C2 (amended): in every reachable state, `Stop` adds the tailers of the registry to
the parallel stopper, each exactly once, and the stopper invokes the stop of
each exactly once, provided `Tailer.Identifier` returns the path the tailer
was registered under. -/
theorem Stop_adds_each_tailer_once (env : Env) (hid : IdentifierIsPath env)
    (s : Launcher × World) (h : Reachable env s) :
    (stopperAdds (World.since s.2 (s.1.Stop env s.2).2)).Perm (s.1.tailers.map Prod.snd) ∧
    (stopped (World.since s.2 (s.1.Stop env s.2).2)).Perm (s.1.tailers.map Prod.snd) ∧
    (∀ e ∈ s.1.tailers,
      (stopperAdds (World.since s.2 (s.1.Stop env s.2).2)).count e.2 = 1 ∧
      (stopped (World.since s.2 (s.1.Stop env s.2).2)).count e.2 = 1) := by
  have hinv := reachable_inv env s h
  have hp : ((env.rangeOrder s.2 s.1.tailers).map Prod.snd).Perm (s.1.tailers.map Prod.snd) :=
    (env.rangeOrder_perm s.2 s.1.tailers).map Prod.snd
  have hadds : stopperAdds (World.since s.2 (s.1.Stop env s.2).2)
      = (env.rangeOrder s.2 s.1.tailers).map Prod.snd := by
    rw [Stop_since env hid s hinv, stopperAdds_append, stopperAdds_map_add,
      stopperAdds_map_stop, List.append_nil]
  have hstops : stopped (World.since s.2 (s.1.Stop env s.2).2)
      = (env.rangeOrder s.2 s.1.tailers).map Prod.snd := by
    rw [Stop_since env hid s hinv, stopped_append, stopped_map_add, stopped_map_stop,
      List.nil_append]
  rw [hadds, hstops]
  refine ⟨hp, hp, ?_⟩
  intro e he
  have hc : (s.1.tailers.map Prod.snd).count e.2 = 1 :=
    List.count_eq_one_of_mem (inv_nodup_tailers hinv) (List.mem_map_of_mem Prod.snd he)
  rw [hp.count_eq]
  exact ⟨hc, hc⟩

theorem Stop_adds_each_tailer_once_witness :
    IdentifierIsPath pathEnv ∧ Reachable pathEnv (runningState pathEnv) ∧
    (stopperAdds (World.since (runningState pathEnv).2
      ((runningState pathEnv).1.Stop pathEnv (runningState pathEnv).2).2)).Perm
      ((runningState pathEnv).1.tailers.map Prod.snd) ∧
    (stopped (World.since (runningState pathEnv).2
      ((runningState pathEnv).1.Stop pathEnv (runningState pathEnv).2).2)).Perm
      ((runningState pathEnv).1.tailers.map Prod.snd) ∧
    (∀ e ∈ (runningState pathEnv).1.tailers,
      (stopperAdds (World.since (runningState pathEnv).2
        ((runningState pathEnv).1.Stop pathEnv (runningState pathEnv).2).2)).count e.2 = 1 ∧
      (stopped (World.since (runningState pathEnv).2
        ((runningState pathEnv).1.Stop pathEnv (runningState pathEnv).2).2)).count e.2 = 1) :=
  ⟨pathEnv_identifier, runningState_reachable pathEnv,
    Stop_adds_each_tailer_once pathEnv pathEnv_identifier (runningState pathEnv)
      (runningState_reachable pathEnv)⟩

/-- The claim that `Stop` hands every registered tailer to the stopper fails
when `Tailer.Identifier` does not return the key the tailer is registered
under: in a reachable state where the identifier of one tailer is the key of
another entry, `delete` removes that entry before `range` reaches it; its
tailer leaves the registry and is neither added to the stopper nor stopped. -/
theorem Stop_drops_entry_of_clashing_identifier :
    Reachable prefixEnv ((New clashSources World.init).1.Start prefixEnv World.init) ∧
    ((New clashSources World.init).1.Start prefixEnv World.init).1.tailers.map Prod.fst
      = ["x", "journald:x"] ∧
    (((New clashSources World.init).1.Start prefixEnv World.init).1.Stop prefixEnv
      ((New clashSources World.init).1.Start prefixEnv World.init).2).1.tailers.map Prod.fst
      = ["x"] ∧
    (∃ e ∈ ((New clashSources World.init).1.Start prefixEnv World.init).1.tailers,
      e ∉ (((New clashSources World.init).1.Start prefixEnv World.init).1.Stop prefixEnv
        ((New clashSources World.init).1.Start prefixEnv World.init).2).1.tailers ∧
      e.2 ∉ stopperAdds (World.since
        ((New clashSources World.init).1.Start prefixEnv World.init).2
        (((New clashSources World.init).1.Start prefixEnv World.init).1.Stop prefixEnv
          ((New clashSources World.init).1.Start prefixEnv World.init).2).2) ∧
      e.2 ∉ stopped (World.since
        ((New clashSources World.init).1.Start prefixEnv World.init).2
        (((New clashSources World.init).1.Start prefixEnv World.init).1.Stop prefixEnv
          ((New clashSources World.init).1.Start prefixEnv World.init).2).2)) :=
  ⟨Reachable.start (Reachable.new clashSources World.init), by decide, by decide, by decide⟩

/-! ### Runs of `Start` -/

theorem Start_delta (env : Env) (l : Launcher) (w : World) :
    StartDelta l.sources l.tailers w ((l.Start env w).1.tailers, (l.Start env w).2)
      (World.since w (l.Start env w).2) :=
  startLoop_since env l.sources l.tailers w

theorem Start_sources (env : Env) (l : Launcher) (w : World) :
    (l.Start env w).1.sources = l.sources := rfl

theorem startTimes_sources (env : Env) (n : Nat) (s : Launcher × World) :
    (startTimes env n s).1.sources = s.1.sources := by
  induction n with
  | zero => rfl
  | succ n ih => rw [startTimes, Start_sources, ih]

theorem startTimes_reachable (env : Env) (n : Nat) (s : Launcher × World)
    (h : Reachable env s) : Reachable env (startTimes env n s) := by
  induction n with
  | zero => exact h
  | succ n ih => exact Reachable.start ih

/-- In a run of `Start` calls from `New`, the registry is the list of the
tailers whose `Start` returned no error, each under the path of its journal. -/
theorem startTimes_registry (env : Env) (sources : List LogSource) (w0 : World) (n : Nat) :
    ∃ d, (startTimes env n (New sources w0)).2.trace = w0.trace ++ d ∧
      (startTimes env n (New sources w0)).1.tailers = (started d).map entryOf := by
  induction n with
  | zero => exact ⟨[], by simp [startTimes, New], by simp [startTimes, New, started]⟩
  | succ n ih =>
    obtain ⟨d, hd1, hd2⟩ := ih
    have h := Start_delta env (startTimes env n (New sources w0)).1
      (startTimes env n (New sources w0)).2
    refine ⟨d ++ World.since (startTimes env n (New sources w0)).2
      (startTimes env (n + 1) (New sources w0)).2, ?_, ?_⟩
    · have := h.trace
      simp only at this
      rw [startTimes, this, hd1, List.append_assoc]
    · have := h.registry
      simp only at this
      rw [startTimes, this, hd2, started_append, List.map_append]

/-- Once an identifier is in the registry, the rest of the loop of `Start`
allocates no tailer for a source with that identifier. -/
theorem startLoop_skips_registered (env : Env) (srcs : List LogSource) (m : Registry)
    (w : World) (p : String) (hp : Registry.exists_ m p = true) :
    ∀ t ∈ created (World.since w (startLoop env srcs m w).2), t.source.Config.Path ≠ p := by
  intro t ht hpath
  obtain ⟨_, hc, hf⟩ := (startLoop_since env srcs m w).fresh t ht
  rw [hc] at hf
  simp only [journalConfig] at hf
  rw [hpath, hp] at hf
  exact Bool.noConfusion hf

/-- C3: dedup invariant. For every source list and every number of `Start`
calls after `New` with no `Stop` in between: the registry has one entry per
key; the registered tailers are exactly the tailers whose `Start` returned no
error during the run, each under the path of its journal, so for each
identifier at most one tailer was ever successfully set up; and wherever the
next `Start` stands in its loop, an identifier that is in the registry at that
point causes no further `setupTailer` (no tailer is allocated for a source
with that identifier). -/
theorem Start_dedup (env : Env) (sources : List LogSource) (w0 : World) (n : Nat) :
    ((startTimes env n (New sources w0)).1.tailers.map Prod.fst).Nodup ∧
    (startTimes env n (New sources w0)).1.tailers
      = (started (World.since w0 (startTimes env n (New sources w0)).2)).map entryOf ∧
    (∀ p : String,
      ((started (World.since w0 (startTimes env n (New sources w0)).2)).map
        (fun t => t.config.Path)).count p ≤ 1) ∧
    (∀ (a b : List LogSource) (p : String),
      (startTimes env n (New sources w0)).1.sources = a ++ b →
      Registry.exists_ (startLoop env a (startTimes env n (New sources w0)).1.tailers
        (startTimes env n (New sources w0)).2).1 p = true →
      ∀ t ∈ created (World.since
          (startLoop env a (startTimes env n (New sources w0)).1.tailers
            (startTimes env n (New sources w0)).2).2
          ((startTimes env n (New sources w0)).1.Start env
            (startTimes env n (New sources w0)).2).2),
        t.source.Config.Path ≠ p) := by
  have hinv := reachable_inv env _
    (startTimes_reachable env n _ (Reachable.new sources w0))
  obtain ⟨d, hd1, hd2⟩ := startTimes_registry env sources w0 n
  have hs : World.since w0 (startTimes env n (New sources w0)).2 = d :=
    World.since_of_trace _ _ d hd1
  have hkeys : (started d).map (fun t => t.config.Path)
      = (startTimes env n (New sources w0)).1.tailers.map Prod.fst := by
    rw [hd2, List.map_map]
    rfl
  refine ⟨hinv.1, by rw [hs]; exact hd2, ?_, ?_⟩
  · intro p
    rw [hs, hkeys]
    exact List.nodup_iff_count_le_one.mp hinv.1 p
  · intro a b p hab hp
    have hstart : ((startTimes env n (New sources w0)).1.Start env
        (startTimes env n (New sources w0)).2).2
        = (startLoop env b
            (startLoop env a (startTimes env n (New sources w0)).1.tailers
              (startTimes env n (New sources w0)).2).1
            (startLoop env a (startTimes env n (New sources w0)).1.tailers
              (startTimes env n (New sources w0)).2).2).2 := by
      simp only [Launcher.Start]
      rw [hab, startLoop_append]
    rw [hstart]
    exact startLoop_skips_registered env b _ _ p hp

/-- The dedup invariant on a list in which two sources share their path: two
`Start` calls register one tailer, and allocate one. -/
theorem Start_dedup_shared_path :
    (startTimes pathEnv 2 (New [src "/var/log/a" "", src "/var/log/a" "u"] World.init)).1.tailers.map
        Prod.fst = ["/var/log/a"] ∧
    (created (startTimes pathEnv 2
      (New [src "/var/log/a" "", src "/var/log/a" "u"] World.init)).2.trace).length = 1 := by
  decide

/-- The loop of `Start` changes nothing when every source is registered. -/
theorem startLoop_noop (env : Env) (srcs : List LogSource) (m : Registry) (w : World)
    (h : ∀ s ∈ srcs, Registry.exists_ m s.Config.Path = true) :
    startLoop env srcs m w = (m, w) := by
  induction srcs with
  | nil => rfl
  | cons source rest ih =>
    have hb : startBody env (m, w) source = (m, w) := by
      simp [startBody, h source (List.mem_cons_self _ _)]
    rw [startLoop_cons, hb]
    exact ih (fun s hs => h s (List.mem_cons_of_mem _ hs))

/-- C4: when the identifier of every owned source is a key of the registry,
`Start` leaves the launcher as it is and calls no collaborator: the world,
trace included, is the one it received. -/
theorem Start_idempotent (env : Env) (l : Launcher) (w : World)
    (h : ∀ s ∈ l.sources, Registry.exists_ l.tailers s.Config.Path = true) :
    l.Start env w = (l, w) := by
  simp [Launcher.Start, startLoop_noop env l.sources l.tailers w h]

theorem Start_idempotent_witness :
    (∀ s ∈ (runningState pathEnv).1.sources,
      Registry.exists_ (runningState pathEnv).1.tailers s.Config.Path = true) ∧
    (runningState pathEnv).1.tailers.length = 2 ∧
    (runningState pathEnv).1.Start pathEnv (runningState pathEnv).2 = runningState pathEnv :=
  ⟨by decide, by decide,
    Start_idempotent pathEnv (runningState pathEnv).1 (runningState pathEnv).2 (by decide)⟩

/-! ### One round of the loop of `Start`, by the result of `setupTailer` -/

theorem startBody_of_error (env : Env) (st : Registry × World) (source : LogSource) (e : String)
    (hex : Registry.exists_ st.1 source.Config.Path = false)
    (h : (setupTailer env source st.2).1 = Except.error e) :
    startBody env st source
      = (st.1, (setupTailer env source st.2).2.record (Event.logWarn e)) := by
  simp only [startBody, hex]
  rcases hs : setupTailer env source st.2 with ⟨r, w1⟩
  rw [hs] at h
  simp only at h
  subst h
  simp

theorem startBody_of_ok (env : Env) (st : Registry × World) (source : LogSource) (t : Tailer)
    (hex : Registry.exists_ st.1 source.Config.Path = false)
    (h : (setupTailer env source st.2).1 = Except.ok t) :
    startBody env st source
      = (st.1 ++ [(source.Config.Path, t)], (setupTailer env source st.2).2) := by
  simp only [startBody, hex]
  rcases hs : setupTailer env source st.2 with ⟨r, w1⟩
  rw [hs] at h
  simp only at h
  subst h
  simp [Registry.set_of_absent _ _ _ hex]

theorem setupTailer_ok_tailer (env : Env) (source : LogSource) (w : World) (t : Tailer)
    (h : (setupTailer env source w).1 = Except.ok t) :
    t = setupTailer.tailer env source w ∧ setupTailer.err env source w = none := by
  rw [setupTailer_result] at h
  cases herr : setupTailer.err env source w with
  | some e => rw [herr] at h; cases h
  | none =>
    rw [herr] at h
    simp only [Except.ok.injEq] at h
    exact ⟨h.symm, rfl⟩

theorem setupTailer_error_err (env : Env) (source : LogSource) (w : World) (e : String)
    (h : (setupTailer env source w).1 = Except.error e) :
    setupTailer.err env source w = some e := by
  rw [setupTailer_result] at h
  cases herr : setupTailer.err env source w with
  | some e1 =>
    rw [herr] at h
    simp only [Except.error.injEq] at h
    rw [h]
  | none => rw [herr] at h; cases h

theorem Registry.get?_append_new (m : Registry) (k : String) (t : Tailer)
    (h : Registry.exists_ m k = false) : Registry.get? (m ++ [(k, t)]) k = some t := by
  induction m with
  | nil => simp [Registry.get?]
  | cons e rest ih =>
    obtain ⟨k1, t1⟩ := e
    by_cases h1 : k1 = k
    · simp [Registry.exists_, Registry.get?, h1] at h
    · have h2 : Registry.exists_ rest k = false := by
        simpa [Registry.exists_, Registry.get?, h1] using h
      simp [Registry.get?, h1, ih h2]

theorem Registry.exists_append_other (m : Registry) (k k1 : String) (t : Tailer)
    (h : Registry.exists_ m k = false) (hk : k ≠ k1) :
    Registry.exists_ (m ++ [(k1, t)]) k = false := by
  rw [Registry.exists_append, h]
  simp [Registry.exists_, Registry.get?, hk.symm]

/-- Partial-failure isolation on a list of two sources. For sources `A` and `B` with distinct paths,
neither in the registry, when `setupTailer` fails for `A` and succeeds for `B`
the registry after `Start` is the old one with the tailer of `B` added under
the path of `B`, and has no entry for the path of `A`, in both orders of the
list; and in any list, a source whose set-up fails is followed by the loop
over the remaining sources, the registry unchanged. -/
theorem Start_pair_isolates_failure (env : Env) (A B : LogSource) (m : Registry) (w : World)
    (hAB : A.Config.Path ≠ B.Config.Path)
    (hA : Registry.exists_ m A.Config.Path = false)
    (hB : Registry.exists_ m B.Config.Path = false) :
    (∀ (e : String) (tB : Tailer),
      (setupTailer env A w).1 = Except.error e →
      (setupTailer env B ((setupTailer env A w).2.record (Event.logWarn e))).1 = Except.ok tB →
        (Launcher.Start env { sources := [A, B], tailers := m } w).1.tailers
          = m ++ [(B.Config.Path, tB)] ∧
        tB.source = B ∧
        Registry.get? (Launcher.Start env { sources := [A, B], tailers := m } w).1.tailers
          B.Config.Path = some tB ∧
        Registry.exists_ (Launcher.Start env { sources := [A, B], tailers := m } w).1.tailers
          A.Config.Path = false) ∧
    (∀ (e : String) (tB : Tailer),
      (setupTailer env B w).1 = Except.ok tB →
      (setupTailer env A (setupTailer env B w).2).1 = Except.error e →
        (Launcher.Start env { sources := [B, A], tailers := m } w).1.tailers
          = m ++ [(B.Config.Path, tB)] ∧
        tB.source = B ∧
        Registry.get? (Launcher.Start env { sources := [B, A], tailers := m } w).1.tailers
          B.Config.Path = some tB ∧
        Registry.exists_ (Launcher.Start env { sources := [B, A], tailers := m } w).1.tailers
          A.Config.Path = false) ∧
    (∀ (e : String) (rest : List LogSource),
      (setupTailer env A w).1 = Except.error e →
        startLoop env (A :: rest) m w
          = startLoop env rest m ((setupTailer env A w).2.record (Event.logWarn e))) := by
  refine ⟨?_, ?_, ?_⟩
  · intro e tB hfail hok
    have h1 := startBody_of_error env (m, w) A e hA hfail
    have h2 := startBody_of_ok env (m, (setupTailer env A w).2.record (Event.logWarn e)) B tB
      hB hok
    have hreg : (Launcher.Start env { sources := [A, B], tailers := m } w).1.tailers
        = m ++ [(B.Config.Path, tB)] := by
      simp only [Launcher.Start, startLoop, List.foldl_cons, List.foldl_nil]
      rw [h1, h2]
    rw [hreg]
    refine ⟨rfl, ?_, Registry.get?_append_new m _ tB hB,
      Registry.exists_append_other m _ _ tB hA hAB⟩
    rw [(setupTailer_ok_tailer env B _ tB hok).1]
    rfl
  · intro e tB hok hfail
    have h1 := startBody_of_ok env (m, w) B tB hB hok
    have hA2 : Registry.exists_ (m ++ [(B.Config.Path, tB)]) A.Config.Path = false :=
      Registry.exists_append_other m _ _ tB hA hAB
    have h2 := startBody_of_error env (m ++ [(B.Config.Path, tB)], (setupTailer env B w).2) A e
      hA2 hfail
    have hreg : (Launcher.Start env { sources := [B, A], tailers := m } w).1.tailers
        = m ++ [(B.Config.Path, tB)] := by
      simp only [Launcher.Start, startLoop, List.foldl_cons, List.foldl_nil]
      rw [h1, h2]
    rw [hreg]
    refine ⟨rfl, ?_, Registry.get?_append_new m _ tB hB, hA2⟩
    rw [(setupTailer_ok_tailer env B _ tB hok).1]
    rfl
  · intro e rest hfail
    rw [startLoop_cons, startBody_of_error env (m, w) A e hA hfail]

theorem setupTailer_since (env : Env) (source : LogSource) (w : World) :
    World.since w (setupTailer env source w).2 = setupTailer.events env source w := by
  apply World.since_of_trace
  rw [setupTailer_world]

/-- The claim that `Start` is invoked with the cursor the store holds for the
identifier of the source fails when `Tailer.Identifier` does not return that
identifier: the store holds `X` for the path `/var/log/a` of the source, the
lookup is made under the prefixed identifier of the tailer, and `Start` is
invoked with the absent cursor. -/
theorem setupTailer_misses_cursor_of_source :
    (src "/var/log/a" "").Config.Path = "/var/log/a" ∧
    prefixStoreEnv.GetLastCommittedCursor
      (setupTailer.allocated prefixStoreEnv (src "/var/log/a" "") World.init) "/var/log/a"
      = some "X" ∧
    cursorLookups (World.since World.init
      (setupTailer prefixStoreEnv (src "/var/log/a" "") World.init).2)
      = ["journald:/var/log/a"] ∧
    startCalls (World.since World.init
      (setupTailer prefixStoreEnv (src "/var/log/a" "") World.init).2)
      = [(setupTailer.tailer prefixStoreEnv (src "/var/log/a" "") World.init, none)] := by
  decide

/-- C6 (amended): resumption. When the identifier of the tailer built for the source is
`id` and the auditor answers `C` for `id` (`none` when it has no entry), the
calls of `setupTailer` are, in this order: one channel request, the
allocation of the tailer, one cursor lookup under `id`, and one `Start` of
that tailer with `C`. The identifier is the one of the tailer; it is the
registry key `source.Config.Path` when `Tailer.Identifier` returns the path. -/
theorem setupTailer_resumes (env : Env) (source : LogSource) (w : World) (id : String)
    (C : Cursor)
    (hid : env.Identifier (setupTailer.tailer env source w) = id)
    (hC : env.GetLastCommittedCursor (setupTailer.allocated env source w) id = C) :
    World.since w (setupTailer env source w).2
      = [Event.nextPipelineChan (env.NextPipelineChan w),
         Event.newTailer (setupTailer.tailer env source w),
         Event.getLastCommittedCursor id C,
         Event.tailerStart (setupTailer.tailer env source w) C
           (setupTailer.err env source w)] ∧
    cursorLookups (World.since w (setupTailer env source w).2) = [id] ∧
    startCalls (World.since w (setupTailer env source w).2)
      = [(setupTailer.tailer env source w, C)] ∧
    (setupTailer.tailer env source w).source = source ∧
    (IdentifierIsPath env → id = source.Config.Path) := by
  have hcur : setupTailer.cursor env source w = C := by
    rw [setupTailer.cursor, hid, hC]
  rw [setupTailer_since]
  refine ⟨?_, ?_, ?_, rfl, ?_⟩
  · simp [setupTailer.events, hid, hcur]
  · simp [setupTailer.events, hid, cursorLookups, List.filterMap_cons]
  · simp [setupTailer.events, hcur, startCalls, List.filterMap_cons]
  · intro h
    rw [← hid, h]
    rfl

theorem setupTailer_resumes_witness :
    (pathEnv.Identifier (setupTailer.tailer pathEnv (src "/var/log/a" "") World.init)
      = "/var/log/a" ∧
     pathEnv.GetLastCommittedCursor
        (setupTailer.allocated pathEnv (src "/var/log/a" "") World.init) "/var/log/a"
      = some "X" ∧
     startCalls (World.since World.init (setupTailer pathEnv (src "/var/log/a" "") World.init).2)
      = [(setupTailer.tailer pathEnv (src "/var/log/a" "") World.init, some "X")]) ∧
    (pathEnv.GetLastCommittedCursor
        (setupTailer.allocated pathEnv (src "/var/log/b" "") World.init) "/var/log/b"
      = none ∧
     startCalls (World.since World.init (setupTailer pathEnv (src "/var/log/b" "") World.init).2)
      = [(setupTailer.tailer pathEnv (src "/var/log/b" "") World.init, none)]) :=
  ⟨⟨rfl, rfl,
    (setupTailer_resumes pathEnv (src "/var/log/a" "") World.init "/var/log/a" (some "X")
      rfl rfl).2.2.1⟩,
   ⟨rfl,
    (setupTailer_resumes pathEnv (src "/var/log/b" "") World.init "/var/log/b" none
      rfl rfl).2.2.1⟩⟩

/-! ### Restart -/

/-- A run of the loop of `Start` registers only paths that were registered
before or that belong to a source of the run. -/
theorem startDelta_absent {srcs : List LogSource} {m : Registry} {w : World}
    {r : Registry × World} {d : List Event} (h : StartDelta srcs m w r d) (p : String)
    (hm : Registry.exists_ m p = false) (hs : ∀ x ∈ srcs, x.Config.Path ≠ p) :
    Registry.exists_ r.1 p = false := by
  rw [h.registry, Registry.exists_append, hm, Bool.false_or, Registry.exists_false_iff]
  intro hmem
  obtain ⟨e, he, hep⟩ := List.mem_map.mp hmem
  obtain ⟨t, ht, hte⟩ := List.mem_map.mp he
  obtain ⟨hsrc, hc, _⟩ := h.fresh t (h.sub.subset ht)
  apply hs t.source hsrc
  rw [← hep, ← hte]
  simp only [entryOf]
  rw [hc]
  rfl

/-- One round of the loop of `Start` on a source whose path is not registered
allocates a tailer for that source. -/
theorem startBody_attempts (env : Env) (st : Registry × World) (source : LogSource)
    (hex : Registry.exists_ st.1 source.Config.Path = false) :
    ∃ d, StartDelta [source] st.1 st.2 (startBody env st source) d ∧
      setupTailer.tailer env source st.2 ∈ created d := by
  obtain ⟨d, h⟩ := startBody_delta env st source
  refine ⟨d, h, ?_⟩
  have htr := h.trace
  rcases startBody_cases env st source with ⟨hex1, _⟩ | ⟨_, e, _, hb⟩ | ⟨_, _, hb⟩
  · rw [hex] at hex1
    exact Bool.noConfusion hex1
  · rw [hb] at htr
    have hd := List.append_cancel_left htr
    rw [← hd, created_append, created_events]
    simp
  · rw [hb] at htr
    have hd := List.append_cancel_left htr
    rw [← hd, created_events]
    simp

/-- The first source of each path that is not registered is attempted by
`Start`: a tailer is allocated for it. -/
theorem startLoop_attempts_first (env : Env) (pre post : List LogSource) (source : LogSource)
    (m : Registry) (w : World)
    (hpre : ∀ x ∈ pre, x.Config.Path ≠ source.Config.Path)
    (hm : Registry.exists_ m source.Config.Path = false) :
    ∃ t ∈ created (World.since w (startLoop env (pre ++ source :: post) m w).2),
      t.source = source := by
  obtain ⟨d1, h1⟩ := startLoop_delta env pre m w
  have hex := startDelta_absent h1 source.Config.Path hm hpre
  obtain ⟨d2, h2, hmem⟩ := startBody_attempts env (startLoop env pre m w) source hex
  obtain ⟨d3, h3⟩ := startLoop_delta env post
    (startBody env (startLoop env pre m w) source).1
    (startBody env (startLoop env pre m w) source).2
  have hall := startDelta_comp (startDelta_comp h1 h2) h3
  have heq : startLoop env (pre ++ source :: post) m w
      = startLoop env post (startBody env (startLoop env pre m w) source).1
          (startBody env (startLoop env pre m w) source).2 := by
    rw [startLoop_append, startLoop_cons]
  rw [heq, World.since_of_trace _ _ _ hall.trace]
  refine ⟨setupTailer.tailer env source (startLoop env pre m w).2, ?_, rfl⟩
  rw [created_append, created_append]
  exact List.mem_append_left _ (List.mem_append_right _ hmem)

/-- C7 (amended): restart. In every reachable state, after `Stop` a following `Start`
allocates a tailer for every owned source that is the first of its path;
every tailer whose `Start` returns no error is then the entry of the registry
under its path; and every entry of the registry is a tailer allocated by this
`Start`, none of the tailers registered before `Stop`. `Tailer.Identifier` is
assumed to return the path the tailer was registered under. -/
theorem Start_after_Stop_restarts (env : Env) (hid : IdentifierIsPath env)
    (s : Launcher × World) (h : Reachable env s) :
    (∀ (pre post : List LogSource) (source : LogSource),
      s.1.sources = pre ++ source :: post →
      (∀ x ∈ pre, x.Config.Path ≠ source.Config.Path) →
      ∃ t ∈ created (World.since (s.1.Stop env s.2).2
          ((s.1.Stop env s.2).1.Start env (s.1.Stop env s.2).2).2),
        t.source = source) ∧
    (∀ t ∈ started (World.since (s.1.Stop env s.2).2
        ((s.1.Stop env s.2).1.Start env (s.1.Stop env s.2).2).2),
      Registry.get? ((s.1.Stop env s.2).1.Start env (s.1.Stop env s.2).2).1.tailers
        t.config.Path = some t) ∧
    (∀ e ∈ ((s.1.Stop env s.2).1.Start env (s.1.Stop env s.2).2).1.tailers,
      e.2 ∈ created (World.since (s.1.Stop env s.2).2
        ((s.1.Stop env s.2).1.Start env (s.1.Stop env s.2).2).2) ∧
      ∀ e0 ∈ s.1.tailers, e0.2 ≠ e.2) := by
  have hinv := reachable_inv env s h
  have hnil := Stop_tailers_of_inv env hid s.1 s.2 hinv
  have hinv2 := reachable_inv env _ (Reachable.start (Reachable.stop h))
  have hd := Start_delta env (s.1.Stop env s.2).1 (s.1.Stop env s.2).2
  have hreg := hd.registry
  simp only [hnil, List.nil_append] at hreg
  refine ⟨?_, ?_, ?_⟩
  · intro pre post source hsrc hpre
    have := startLoop_attempts_first env pre post source (s.1.Stop env s.2).1.tailers
      (s.1.Stop env s.2).2 hpre (by rw [hnil]; rfl)
    have hsrc2 : (s.1.Stop env s.2).1.sources = pre ++ source :: post := hsrc
    simp only [Launcher.Start]
    rw [hsrc2]
    exact this
  · intro t ht
    apply Registry.get?_of_mem _ _ _ hinv2.1
    rw [hreg]
    exact List.mem_map_of_mem entryOf ht
  · intro e he
    rw [hreg] at he
    obtain ⟨t, ht, hte⟩ := List.mem_map.mp he
    have hc := hd.sub.subset ht
    have hte2 : e.2 = t := by rw [← hte]; rfl
    rw [hte2]
    refine ⟨hc, ?_⟩
    intro e0 he0 heq
    have h1 := (hd.addrs t hc).1
    have h2 := (hinv.2.1 e0 he0).2
    have h3 : (s.1.Stop env s.2).2.allocs = s.2.allocs := rfl
    rw [heq] at h2
    omega

theorem Start_after_Stop_restarts_witness :
    IdentifierIsPath pathEnv ∧ Reachable pathEnv (runningState pathEnv) ∧
    (∀ t ∈ started (World.since
        ((runningState pathEnv).1.Stop pathEnv (runningState pathEnv).2).2
        (((runningState pathEnv).1.Stop pathEnv (runningState pathEnv).2).1.Start pathEnv
          ((runningState pathEnv).1.Stop pathEnv (runningState pathEnv).2).2).2),
      Registry.get?
        (((runningState pathEnv).1.Stop pathEnv (runningState pathEnv).2).1.Start pathEnv
          ((runningState pathEnv).1.Stop pathEnv (runningState pathEnv).2).2).1.tailers
        t.config.Path = some t) ∧
    ((((runningState pathEnv).1.Stop pathEnv (runningState pathEnv).2).1.Start pathEnv
        ((runningState pathEnv).1.Stop pathEnv (runningState pathEnv).2).2).1.tailers.map
      (fun e => (e.1, e.2.addr))) = [("/var/log/a", 2), ("/var/log/b", 3)] :=
  ⟨pathEnv_identifier, runningState_reachable pathEnv,
    (Start_after_Stop_restarts pathEnv pathEnv_identifier (runningState pathEnv)
      (runningState_reachable pathEnv)).2.1,
    by decide⟩

/-- The claim that a `Start` after `Stop` sets every owned source up again
fails when `Tailer.Identifier` does not return the key the tailer is
registered under: with an identifier that carries a prefix, `Stop` leaves
both entries in the registry and the following `Start` skips both owned
sources, allocating no tailer. -/
theorem Start_after_Stop_allocates_nothing :
    Reachable prefixEnv (runningState prefixEnv) ∧
    (runningState prefixEnv).1.sources = [src "/var/log/a" "", src "/var/log/b" "x,y"] ∧
    created (World.since
      ((runningState prefixEnv).1.Stop prefixEnv (runningState prefixEnv).2).2
      (((runningState prefixEnv).1.Stop prefixEnv (runningState prefixEnv).2).1.Start prefixEnv
        ((runningState prefixEnv).1.Stop prefixEnv (runningState prefixEnv).2).2).2) = [] ∧
    (((runningState prefixEnv).1.Stop prefixEnv (runningState prefixEnv).2).1.Start prefixEnv
        ((runningState prefixEnv).1.Stop prefixEnv (runningState prefixEnv).2).2).1.tailers
      = (runningState prefixEnv).1.tailers :=
  ⟨runningState_reachable prefixEnv, by decide, by decide, by decide⟩

/-! ### `Stop` on an empty registry, `New`, and the result of `setupTailer` -/

/-- On an empty registry `Stop` changes neither the launcher nor the world. -/
theorem Stop_of_empty (env : Env) (l : Launcher) (w : World) (h : l.tailers = []) :
    l.Stop env w = (l, w) := by
  have hr : env.rangeOrder w l.tailers = [] := by
    have := env.rangeOrder_perm w l.tailers
    rw [h] at this ⊢
    exact this.eq_nil
  obtain ⟨sources, tailers⟩ := l
  simp only at h
  subst h
  simp only [Launcher.Stop, hr, stopLoop, List.foldl_nil, parallelStop, World.recordAll,
    List.map_nil, List.append_nil]

theorem Registry.exists_of_sublist (m n : Registry) (k : String) (hs : n.Sublist m)
    (h : Registry.exists_ n k = true) : Registry.exists_ m k = true := by
  rw [Registry.exists_iff] at h ⊢
  exact (hs.map Prod.fst).subset h

theorem Registry.exists_delete_self (m : Registry) (k : String) :
    Registry.exists_ (Registry.delete m k) k = false := by
  rw [Registry.exists_false_iff]
  intro hmem
  obtain ⟨e, he, hek⟩ := List.mem_map.mp hmem
  have := (List.mem_filter.mp he).2
  simp [hek] at this

theorem Registry.delete_of_absent (m : Registry) (k : String)
    (h : Registry.exists_ m k = false) : Registry.delete m k = m := by
  rw [Registry.exists_false_iff] at h
  unfold Registry.delete
  rw [List.filter_eq_self]
  intro e he
  have : e.1 ≠ k := fun hk => h (hk ▸ List.mem_map_of_mem Prod.fst he)
  simpa using this

/-- An entry that the loop of `Stop` has ranged over and whose key is still in
the registry at the end was visited, so the identifier of its tailer is not a
key of the registry at the end. -/
theorem stopFold_visited_gone (env : Env) (pending : Registry) (st : Registry × List Tailer) :
    ∀ e ∈ pending, Registry.exists_ (pending.foldl (stopBody env) st).1 e.1 = true →
      Registry.exists_ (pending.foldl (stopBody env) st).1 (env.Identifier e.2) = false := by
  induction pending generalizing st with
  | nil => intro e he; simp at he
  | cons first rest ih =>
    intro e he hex
    rw [List.foldl_cons] at hex ⊢
    rcases List.mem_cons.mp he with h1 | h1
    · subst h1
      have hsub := stopFold_sublist env rest (stopBody env st e)
      have hst : Registry.exists_ st.1 e.1 = true :=
        Registry.exists_of_sublist _ _ _ ((hsub.trans (stopBody_sublist env st e))) hex
      have hbody : (stopBody env st e).1 = Registry.delete st.1 (env.Identifier e.2) := by
        simp [stopBody, hst]
      rw [hbody] at hsub
      cases hcase : Registry.exists_ (List.foldl (stopBody env) (stopBody env st e) rest).1
          (env.Identifier e.2) with
      | false => rfl
      | true =>
        have := Registry.exists_of_sublist _ _ _ hsub hcase
        rw [Registry.exists_delete_self] at this
        exact Bool.noConfusion this
    · exact ih (stopBody env st first) e h1 hex

/-- The loop of `Stop` leaves the registry as it is when no identifier of a
ranged tailer is a key of it. -/
theorem stopFold_of_absent (env : Env) (pending m : Registry) (stopper : List Tailer)
    (h : ∀ e ∈ pending, Registry.exists_ m (env.Identifier e.2) = false) :
    (pending.foldl (stopBody env) (m, stopper)).1 = m := by
  induction pending generalizing stopper with
  | nil => rfl
  | cons first rest ih =>
    rw [List.foldl_cons]
    have hrest := fun e he => h e (List.mem_cons_of_mem _ he)
    by_cases hex : Registry.exists_ m first.1 = true
    · have hbody : stopBody env (m, stopper) first = (m, stopper ++ [first.2]) := by
        simp [stopBody, hex, Registry.delete_of_absent m _ (h first (List.mem_cons_self _ _))]
      rw [hbody]
      exact ih _ hrest
    · have hbody : stopBody env (m, stopper) first = (m, stopper) := by
        simp [stopBody, hex]
      rw [hbody]
      exact ih _ hrest

/-- A second `Stop` leaves the launcher, sources and registry, as the first
`Stop` left it, for any `Tailer.Identifier` and any order of the ranges. -/
theorem Stop_Stop_launcher (env : Env) (l : Launcher) (w w1 : World) :
    ((l.Stop env w).1.Stop env w1).1 = (l.Stop env w).1 := by
  have hgone := stopFold_visited_gone env (env.rangeOrder w l.tailers) (l.tailers, [])
  have hsub : (l.Stop env w).1.tailers.Sublist l.tailers := stopFold_sublist env _ _
  have habs : ∀ e ∈ env.rangeOrder w1 (l.Stop env w).1.tailers,
      Registry.exists_ (l.Stop env w).1.tailers (env.Identifier e.2) = false := by
    intro e he
    have he1 : e ∈ (l.Stop env w).1.tailers :=
      (env.rangeOrder_perm w1 (l.Stop env w).1.tailers).subset he
    have he2 : e ∈ env.rangeOrder w l.tailers :=
      (env.rangeOrder_perm w l.tailers).symm.subset (hsub.subset he1)
    exact hgone e he2
      ((Registry.exists_iff _ _).mpr (List.mem_map_of_mem Prod.fst he1))
  have htail : ((l.Stop env w).1.Stop env w1).1.tailers = (l.Stop env w).1.tailers :=
    stopFold_of_absent env _ _ [] habs
  have hsrc : ((l.Stop env w).1.Stop env w1).1.sources = (l.Stop env w).1.sources := rfl
  cases hl2 : ((l.Stop env w).1.Stop env w1).1 with
  | mk sources2 tailers2 =>
    cases hl1 : (l.Stop env w).1 with
    | mk sources1 tailers1 =>
      rw [hl2, hl1] at htail hsrc
      simp only at htail hsrc
      rw [htail, hsrc]

/-- The claim that `Stop(); Stop()` has the effect of a single `Stop()` fails
when `Tailer.Identifier` does not return the key the tailer is registered
under: with an identifier that carries a prefix the first `Stop` leaves both
entries in the registry, and the second `Stop` adds both tailers to a stopper
and stops them a second time. -/
theorem second_Stop_stops_again :
    Reachable prefixEnv (runningState prefixEnv) ∧
    ((runningState prefixEnv).1.Stop prefixEnv (runningState prefixEnv).2).1.tailers ≠ [] ∧
    (stopperAdds (World.since
      ((runningState prefixEnv).1.Stop prefixEnv (runningState prefixEnv).2).2
      (((runningState prefixEnv).1.Stop prefixEnv (runningState prefixEnv).2).1.Stop prefixEnv
        ((runningState prefixEnv).1.Stop prefixEnv (runningState prefixEnv).2).2).2)).length
      = 2 ∧
    (stopped
      (((runningState prefixEnv).1.Stop prefixEnv (runningState prefixEnv).2).1.Stop prefixEnv
        ((runningState prefixEnv).1.Stop prefixEnv (runningState prefixEnv).2).2).2.trace).length
      = 4 ∧
    ((runningState prefixEnv).1.Stop prefixEnv (runningState prefixEnv).2).1.Stop prefixEnv
        ((runningState prefixEnv).1.Stop prefixEnv (runningState prefixEnv).2).2
      ≠ (runningState prefixEnv).1.Stop prefixEnv (runningState prefixEnv).2 :=
  ⟨runningState_reachable prefixEnv, by decide, by decide, by decide, by decide⟩

/-- C8 (amended): idempotent `Stop`. With an empty registry `Stop` is a
no-op: the launcher (sources and registry) and the world are unchanged, so
nothing is added to the stopper and no stop is invoked. A second `Stop` right
after a first always leaves the sources and the registry as the first left
them. When `Tailer.Identifier` returns the path the tailer was registered
under, the second `Stop` in a reachable state is a no-op altogether: it calls
no collaborator. -/
theorem Stop_idempotent (env : Env) :
    (∀ (l : Launcher) (w : World), l.tailers = [] →
      l.Stop env w = (l, w) ∧
      stopperAdds (World.since w (l.Stop env w).2) = [] ∧
      stopped (World.since w (l.Stop env w).2) = []) ∧
    (∀ (l : Launcher) (w : World),
      ((l.Stop env w).1.Stop env (l.Stop env w).2).1 = (l.Stop env w).1) ∧
    (IdentifierIsPath env → ∀ s : Launcher × World, Reachable env s →
      (s.1.Stop env s.2).1.Stop env (s.1.Stop env s.2).2 = s.1.Stop env s.2) := by
  refine ⟨?_, ?_, ?_⟩
  · intro l w h
    rw [Stop_of_empty env l w h, World.since_self]
    exact ⟨rfl, rfl, rfl⟩
  · intro l w
    exact Stop_Stop_launcher env l w _
  · intro hid s h
    exact Stop_of_empty env _ _ (Stop_tailers_of_inv env hid s.1 s.2 (reachable_inv env s h))

theorem Stop_idempotent_witness :
    (New exampleSources World.init).1.tailers = [] ∧
    (New exampleSources World.init).1.Stop pathEnv World.init
      = ((New exampleSources World.init).1, World.init) ∧
    (((runningState prefixEnv).1.Stop prefixEnv (runningState prefixEnv).2).1.Stop prefixEnv
        ((runningState prefixEnv).1.Stop prefixEnv (runningState prefixEnv).2).2).1
      = ((runningState prefixEnv).1.Stop prefixEnv (runningState prefixEnv).2).1 ∧
    ((runningState pathEnv).1.Stop pathEnv (runningState pathEnv).2).1.Stop pathEnv
        ((runningState pathEnv).1.Stop pathEnv (runningState pathEnv).2).2
      = (runningState pathEnv).1.Stop pathEnv (runningState pathEnv).2 :=
  ⟨rfl,
    ((Stop_idempotent pathEnv).1 (New exampleSources World.init).1 World.init rfl).1,
    (Stop_idempotent prefixEnv).2.1 (runningState prefixEnv).1 (runningState prefixEnv).2,
    (Stop_idempotent pathEnv).2.2 pathEnv_identifier (runningState pathEnv)
      (runningState_reachable pathEnv)⟩

theorem filterJournald_eq (sources acc : List LogSource) :
    filterJournald sources acc
      = acc ++ sources.filter (fun s => decide (s.Config.Type_ = JournaldType)) := by
  induction sources generalizing acc with
  | nil => simp [filterJournald]
  | cons source rest ih =>
    by_cases h : source.Config.Type_ = JournaldType
    · simp [filterJournald, h, ih]
    · simp [filterJournald, h, ih]

/-- C9: construction. For every source list, the owned sources of the launcher
returned by `New` are the sources of type journald, in their order and as
many times as listed (the list filtered by the type); its registry is empty;
and `New` calls no collaborator: the world is the one it received. -/
theorem New_owns_journald_sources (sources : List LogSource) (w : World) :
    (New sources w).1.sources
      = sources.filter (fun s => decide (s.Config.Type_ = JournaldType)) ∧
    (New sources w).1.sources.Sublist sources ∧
    (∀ s : LogSource, (New sources w).1.sources.count s
      = if s.Config.Type_ = JournaldType then sources.count s else 0) ∧
    (New sources w).1.tailers = [] ∧
    (New sources w).2 = w ∧
    World.since w (New sources w).2 = [] := by
  have hf : (New sources w).1.sources
      = sources.filter (fun s => decide (s.Config.Type_ = JournaldType)) := by
    simp [New, filterJournald_eq]
  refine ⟨hf, ?_, ?_, rfl, rfl, World.since_self w⟩
  · rw [hf]
    exact List.filter_sublist _
  · intro s
    rw [hf]
    by_cases h : s.Config.Type_ = JournaldType
    · rw [if_pos h]
      exact List.count_filter (by simpa using h)
    · rw [if_neg h]
      apply List.count_eq_zero_of_not_mem
      intro hmem
      exact h (by simpa using (List.mem_filter.mp hmem).2)

/-- One round of the loop of `Start` leaves the registry as it is when the
`Start` of the tailer returns an error. -/
theorem startBody_registry_of_err (env : Env) (m : Registry) (w : World) (source : LogSource)
    (e : String) (he : setupTailer.err env source w = some e) :
    (startBody env (m, w) source).1 = m := by
  rcases startBody_cases env (m, w) source with ⟨_, hb⟩ | ⟨_, _, _, hb⟩ | ⟨_, hn, _⟩
  · rw [hb]
  · rw [hb]
  · simp only at hn
    rw [he] at hn
    cases hn

/-- C10: `setupTailer` returns the tailer or the error, never both. When the
`Start` of the tailer returns the error `e`, `setupTailer` returns `e` as it
is, `Launcher.Start` leaves the registry as it was for that source, the
launcher keeps no reference to the tailer whose `Start` failed, and
`setupTailer` invokes no stop on it. When `Start` returns no error,
`setupTailer` returns the tailer it allocated and started. -/
theorem setupTailer_tailer_or_error (env : Env) (source : LogSource) (w : World) :
    (∀ e : String, setupTailer.err env source w = some e →
      (setupTailer env source w).1 = Except.error e ∧
      (∀ m : Registry, (startBody env (m, w) source).1 = m) ∧
      (∀ m : Registry, Inv m w →
        ∀ entry ∈ (startBody env (m, w) source).1, entry.2 ≠ setupTailer.tailer env source w) ∧
      started (World.since w (setupTailer env source w).2) = [] ∧
      stopperAdds (World.since w (setupTailer env source w).2) = [] ∧
      stopped (World.since w (setupTailer env source w).2) = []) ∧
    (setupTailer.err env source w = none →
      (setupTailer env source w).1 = Except.ok (setupTailer.tailer env source w) ∧
      startCalls (World.since w (setupTailer env source w).2)
        = [(setupTailer.tailer env source w, setupTailer.cursor env source w)] ∧
      started (World.since w (setupTailer env source w).2)
        = [setupTailer.tailer env source w]) := by
  refine ⟨?_, ?_⟩
  · intro e he
    refine ⟨by rw [setupTailer_result, he], ?_, ?_, ?_, ?_, ?_⟩
    · intro m
      exact startBody_registry_of_err env m w source e he
    · intro m hm entry hentry heq
      rw [startBody_registry_of_err env m w source e he] at hentry
      have := (hm.2.1 entry hentry).2
      rw [heq] at this
      simp [setupTailer.tailer, NewTailer] at this
    · rw [setupTailer_since, started_events, he]
    · simp [setupTailer_since, setupTailer.events, stopperAdds, List.filterMap_cons]
    · simp [setupTailer_since, setupTailer.events, stopped, List.filterMap_cons]
  · intro he
    refine ⟨by rw [setupTailer_result, he], ?_, ?_⟩
    · simp [setupTailer_since, setupTailer.events, startCalls, List.filterMap_cons]
    · rw [setupTailer_since, started_events, he]

theorem setupTailer_tailer_or_error_witness :
    (setupTailer.err pathEnv badSource World.init = some "cannot open" ∧
      (setupTailer pathEnv badSource World.init).1 = Except.error "cannot open" ∧
      (startBody pathEnv ([], World.init) badSource).1 = []) ∧
    (setupTailer.err pathEnv goodSource World.init = none ∧
      (setupTailer pathEnv goodSource World.init).1
        = Except.ok (setupTailer.tailer pathEnv goodSource World.init)) :=
  ⟨⟨rfl,
    ((setupTailer_tailer_or_error pathEnv badSource World.init).1 "cannot open" rfl).1,
    ((setupTailer_tailer_or_error pathEnv badSource World.init).1 "cannot open" rfl).2.1 []⟩,
   ⟨rfl, ((setupTailer_tailer_or_error pathEnv goodSource World.init).2 rfl).1⟩⟩

/-! ### The order of `Start` -/

theorem attempted_append (a b : List Event) : attempted (a ++ b) = attempted a ++ attempted b := by
  simp [attempted]

theorem step_sources (env : Env) (s : Launcher × World) (op : Op) :
    (step env s op).1.sources = s.1.sources := by
  cases op <;> rfl

theorem run_sources (env : Env) (ops : List Op) (s : Launcher × World) :
    (run env ops s).1.sources = s.1.sources := by
  induction ops generalizing s with
  | nil => rfl
  | cons op rest ih =>
    simp only [run, List.foldl_cons] at ih ⊢
    rw [ih, step_sources]

theorem run_reachable (env : Env) (ops : List Op) (s : Launcher × World)
    (h : Reachable env s) : Reachable env (run env ops s) := by
  induction ops generalizing s with
  | nil => exact h
  | cons op rest ih =>
    simp only [run, List.foldl_cons] at ih ⊢
    apply ih
    cases op
    · exact Reachable.start h
    · exact Reachable.stop h

theorem New_sources_sublist (sources : List LogSource) (w : World) :
    (New sources w).1.sources.Sublist sources := by
  simp only [New, filterJournald_eq, List.nil_append]
  exact List.filter_sublist _

/-- One round of the loop of `Start` invokes `setupTailer` for its source or
for none. -/
theorem startBody_attempted (env : Env) (st : Registry × World) (source : LogSource) :
    (attempted (World.since st.2 (startBody env st source).2)).Sublist [source] := by
  rcases startBody_cases env st source with ⟨_, hb⟩ | ⟨_, e, _, hb⟩ | ⟨_, _, hb⟩
  · rw [hb, World.since_self]
    simp [attempted, created]
  · rw [hb, World.since_of_trace _ _ _ rfl]
    simp only [attempted, created_append, created_events]
    simp [created, setupTailer.tailer, NewTailer]
  · rw [hb, World.since_of_trace _ _ _ rfl]
    simp only [attempted, created_events]
    simp [setupTailer.tailer, NewTailer]

theorem since_trans (w0 w1 w2 : World) (d1 d2 : List Event) (h1 : w1.trace = w0.trace ++ d1)
    (h2 : w2.trace = w1.trace ++ d2) :
    World.since w0 w2 = World.since w0 w1 ++ World.since w1 w2 := by
  rw [World.since_of_trace w0 w1 d1 h1, World.since_of_trace w1 w2 d2 h2]
  apply World.since_of_trace
  rw [h2, h1, List.append_assoc]

/-- The sources for which the loop of `Start` invokes `setupTailer` are a
subsequence of the sources it ranges over. -/
theorem startLoop_attempted (env : Env) (srcs : List LogSource) (m : Registry) (w : World) :
    (attempted (World.since w (startLoop env srcs m w).2)).Sublist srcs := by
  induction srcs generalizing m w with
  | nil =>
    simp [startLoop, World.since_self, attempted, created]
  | cons source rest ih =>
    obtain ⟨d1, h1⟩ := startBody_delta env (m, w) source
    obtain ⟨d2, h2⟩ := startLoop_delta env rest (startBody env (m, w) source).1
      (startBody env (m, w) source).2
    rw [startLoop_cons, since_trans w (startBody env (m, w) source).2 _ d1 d2 h1.trace h2.trace,
      attempted_append]
    exact List.Sublist.append (startBody_attempted env (m, w) source) (ih _ _)

/-- C11: start order. In every state reached from `New sources0` by `Start`
and `Stop` calls, the sources for which one `Start` call invokes
`setupTailer` are, in order, a subsequence of the owned sources, which are a
subsequence of the list given to `New`; and the call considers each owned
source once, at its place: the sources before it first, then that source in
the state they left, then the sources after it. -/
theorem Start_attempts_in_listed_order (env : Env) (sources0 : List LogSource) (w0 : World)
    (ops : List Op) :
    (attempted (World.since (run env ops (New sources0 w0)).2
      ((run env ops (New sources0 w0)).1.Start env (run env ops (New sources0 w0)).2).2)).Sublist
      (run env ops (New sources0 w0)).1.sources ∧
    (run env ops (New sources0 w0)).1.sources.Sublist sources0 ∧
    (attempted (World.since (run env ops (New sources0 w0)).2
      ((run env ops (New sources0 w0)).1.Start env (run env ops (New sources0 w0)).2).2)).Sublist
      sources0 ∧
    (∀ (pre post : List LogSource) (source : LogSource),
      (run env ops (New sources0 w0)).1.sources = pre ++ source :: post →
      startLoop env (run env ops (New sources0 w0)).1.sources
          (run env ops (New sources0 w0)).1.tailers (run env ops (New sources0 w0)).2
        = startLoop env post
            (startBody env (startLoop env pre (run env ops (New sources0 w0)).1.tailers
              (run env ops (New sources0 w0)).2) source).1
            (startBody env (startLoop env pre (run env ops (New sources0 w0)).1.tailers
              (run env ops (New sources0 w0)).2) source).2) := by
  have h1 := startLoop_attempted env (run env ops (New sources0 w0)).1.sources
    (run env ops (New sources0 w0)).1.tailers (run env ops (New sources0 w0)).2
  have h2 : (run env ops (New sources0 w0)).1.sources.Sublist sources0 := by
    rw [run_sources]
    exact New_sources_sublist sources0 w0
  refine ⟨h1, h2, h1.trans h2, ?_⟩
  intro pre post source hsplit
  rw [hsplit, startLoop_append, startLoop_cons]

/-- The order of `Start` on the example sources: both journald sources are
attempted, in listed order. -/
theorem Start_attempts_example :
    attempted (runningState pathEnv).2.trace = [src "/var/log/a" "", src "/var/log/b" "x,y"] := by
  decide

/-! ### The keys of the registry -/

/-- The keys `Start` leaves in the registry were there before or are the path
of an owned source. -/
theorem Start_keys (env : Env) (l : Launcher) (w : World) :
    ∀ k ∈ (l.Start env w).1.tailers.map Prod.fst,
      k ∈ l.tailers.map Prod.fst ∨ ∃ source ∈ l.sources, source.Config.Path = k := by
  intro k hk
  have hd := Start_delta env l w
  have hreg := hd.registry
  simp only at hreg
  rw [hreg, List.map_append, List.mem_append] at hk
  rcases hk with hk | hk
  · exact Or.inl hk
  · right
    obtain ⟨e, he, hek⟩ := List.mem_map.mp hk
    obtain ⟨t, ht, hte⟩ := List.mem_map.mp he
    obtain ⟨hsrc, hc, _⟩ := hd.fresh t (hd.sub.subset ht)
    refine ⟨t.source, hsrc, ?_⟩
    rw [← hek, ← hte]
    simp only [entryOf]
    rw [hc]
    rfl

theorem Stop_sublist (env : Env) (l : Launcher) (w : World) :
    (l.Stop env w).1.tailers.Sublist l.tailers :=
  stopFold_sublist env _ _

/-- Every key of the registry is the path of an owned source, in every state
reached from a state where it holds. -/
theorem run_keys_owned (env : Env) (ops : List Op) (s : Launcher × World)
    (h : ∀ k ∈ s.1.tailers.map Prod.fst, ∃ source ∈ s.1.sources, source.Config.Path = k) :
    ∀ k ∈ (run env ops s).1.tailers.map Prod.fst,
      ∃ source ∈ (run env ops s).1.sources, source.Config.Path = k := by
  induction ops generalizing s with
  | nil => exact h
  | cons op rest ih =>
    simp only [run, List.foldl_cons] at ih ⊢
    apply ih
    cases op
    · intro k hk
      rcases Start_keys env s.1 s.2 k hk with h1 | h1
      · exact h k h1
      · exact h1
    · intro k hk
      exact h k (((Stop_sublist env s.1 s.2).map Prod.fst).subset hk)

/-- C18: registry-key invariant. In every state reached from `New sources0`
by `Start` and `Stop` calls, the owned sources are the journald sources of
`sources0`, and every key of the registry is the `Config.Path` of a source of
`sources0` whose type is journald. A `Start` call adds only keys that are the
path of an owned source, and a `Stop` call adds no key: it leaves a sublist
of the registry. -/
theorem registry_keys_are_owned_paths (env : Env) (sources0 : List LogSource) (w0 : World)
    (ops : List Op) :
    (run env ops (New sources0 w0)).1.sources
      = sources0.filter (fun s => decide (s.Config.Type_ = JournaldType)) ∧
    (∀ k ∈ (run env ops (New sources0 w0)).1.tailers.map Prod.fst,
      ∃ source ∈ sources0,
        source.Config.Type_ = JournaldType ∧ source.Config.Path = k ∧
        source ∈ (run env ops (New sources0 w0)).1.sources) ∧
    (∀ k ∈ ((run env ops (New sources0 w0)).1.Start env
        (run env ops (New sources0 w0)).2).1.tailers.map Prod.fst,
      k ∈ (run env ops (New sources0 w0)).1.tailers.map Prod.fst ∨
      ∃ source ∈ (run env ops (New sources0 w0)).1.sources, source.Config.Path = k) ∧
    ((run env ops (New sources0 w0)).1.Stop env
        (run env ops (New sources0 w0)).2).1.tailers.Sublist
      (run env ops (New sources0 w0)).1.tailers := by
  have hsrc : (run env ops (New sources0 w0)).1.sources
      = sources0.filter (fun s => decide (s.Config.Type_ = JournaldType)) := by
    rw [run_sources]
    simp [New, filterJournald_eq]
  refine ⟨hsrc, ?_, Start_keys env _ _, Stop_sublist env _ _⟩
  intro k hk
  obtain ⟨source, hs, hp⟩ := run_keys_owned env ops (New sources0 w0)
    (by intro k hk; simp [New] at hk) k hk
  have hs2 := hs
  rw [hsrc, List.mem_filter] at hs2
  exact ⟨source, hs2.1, by simpa using hs2.2, hp, hs⟩

/-- The keys of the registry in the example: the paths of the two journald
sources, not the path of the source of another type. -/
theorem registry_keys_example :
    (run pathEnv [Op.start, Op.stop, Op.start] (New exampleSources World.init)).1.tailers.map
      Prod.fst = ["/var/log/a", "/var/log/b"] := by
  decide

/-! ### Retry of a failed source -/

theorem Registry.get?_append_left (m n : Registry) (k : String) (t : Tailer)
    (h : Registry.get? m k = some t) : Registry.get? (m ++ n) k = some t := by
  induction m with
  | nil => simp [Registry.get?] at h
  | cons e rest ih =>
    obtain ⟨k1, t1⟩ := e
    by_cases h1 : k1 = k
    · simpa [Registry.get?, h1] using h
    · simp only [Registry.get?, h1, if_false] at h
      simp [Registry.get?, h1, ih h]

/-- When the turn of a source comes in the loop of `Start` and its path is not
registered, the four calls of its `setupTailer` are made, and its tailer is
the entry of its path at the end of the loop if its `Start` returns no
error. -/
theorem startLoop_turn (env : Env) (pre post : List LogSource) (source : LogSource)
    (m : Registry) (w : World)
    (hex : Registry.exists_ (startLoop env pre m w).1 source.Config.Path = false) :
    (∀ e ∈ setupTailer.events env source (startLoop env pre m w).2,
      e ∈ World.since w (startLoop env (pre ++ source :: post) m w).2) ∧
    (setupTailer.err env source (startLoop env pre m w).2 = none →
      Registry.get? (startLoop env (pre ++ source :: post) m w).1 source.Config.Path
        = some (setupTailer.tailer env source (startLoop env pre m w).2)) := by
  obtain ⟨d1, h1⟩ := startLoop_delta env pre m w
  obtain ⟨d2, h2⟩ := startBody_delta env (startLoop env pre m w) source
  obtain ⟨d3, h3⟩ := startLoop_delta env post
    (startBody env (startLoop env pre m w) source).1
    (startBody env (startLoop env pre m w) source).2
  have hall := startDelta_comp (startDelta_comp h1 h2) h3
  have heq : startLoop env (pre ++ source :: post) m w
      = startLoop env post (startBody env (startLoop env pre m w) source).1
          (startBody env (startLoop env pre m w) source).2 := by
    rw [startLoop_append, startLoop_cons]
  rw [heq, World.since_of_trace _ _ _ hall.trace]
  have htr := h2.trace
  rcases startBody_cases env (startLoop env pre m w) source with
    ⟨hex1, _⟩ | ⟨_, e, he, hb⟩ | ⟨_, he, hb⟩
  · rw [hex] at hex1
    exact Bool.noConfusion hex1
  · rw [hb] at htr
    have hd := List.append_cancel_left htr
    refine ⟨?_, ?_⟩
    · intro ev hev
      rw [← hd]
      simp only [List.mem_append]
      exact Or.inl (Or.inr (Or.inl hev))
    · intro hn
      rw [he] at hn
      cases hn
  · rw [hb] at htr
    have hd := List.append_cancel_left htr
    refine ⟨?_, ?_⟩
    · intro ev hev
      rw [← hd]
      simp only [List.mem_append]
      exact Or.inl (Or.inr hev)
    · intro _
      rw [h3.registry, hb]
      exact Registry.get?_append_left _ _ _ _ (Registry.get?_append_new _ _ _ hex)

theorem setupTailer_events_mem (env : Env) (source : LogSource) (w : World) :
    Event.nextPipelineChan (env.NextPipelineChan w) ∈ setupTailer.events env source w ∧
    Event.newTailer (setupTailer.tailer env source w) ∈ setupTailer.events env source w ∧
    Event.getLastCommittedCursor (env.Identifier (setupTailer.tailer env source w))
      (setupTailer.cursor env source w) ∈ setupTailer.events env source w := by
  simp [setupTailer.events]

theorem created_of_mem (tr : List Event) (t : Tailer) (h : Event.newTailer t ∈ tr) :
    t ∈ created tr :=
  List.mem_filterMap.mpr ⟨_, h, rfl⟩

theorem chanRequests_of_mem (tr : List Event) (c : Nat) (h : Event.nextPipelineChan c ∈ tr) :
    c ∈ chanRequests tr :=
  List.mem_filterMap.mpr ⟨_, h, rfl⟩

theorem cursorLookups_of_mem (tr : List Event) (i : String) (c : Cursor)
    (h : Event.getLastCommittedCursor i c ∈ tr) : i ∈ cursorLookups tr :=
  List.mem_filterMap.mpr ⟨_, h, rfl⟩

/-- The claim that a failed source is always attempted again by the next
`Start` fails when an earlier source shares its path: the second of the twin
sources is attempted by the first `Start`, which registers nothing, and the
second `Start` registers the first twin and does not attempt the second. -/
theorem Start_skips_failed_twin :
    src "/var/log/a" "ssh" ∈ (New twinSources World.init).1.sources ∧
    src "/var/log/a" "ssh" ∈ attempted (startTimes flakyEnv 1 (New twinSources World.init)).2.trace ∧
    started (startTimes flakyEnv 1 (New twinSources World.init)).2.trace = [] ∧
    (startTimes flakyEnv 1 (New twinSources World.init)).1.tailers = [] ∧
    attempted (World.since (startTimes flakyEnv 1 (New twinSources World.init)).2
      (startTimes flakyEnv 2 (New twinSources World.init)).2) = [src "/var/log/a" ""] ∧
    src "/var/log/a" "ssh" ∉ attempted
      (World.since (startTimes flakyEnv 1 (New twinSources World.init)).2
        (startTimes flakyEnv 2 (New twinSources World.init)).2) := by
  decide

/-- C19 (amended): failed sources are retried. If `setupTailer` was invoked
for an owned source during a `Start` call and no tailer of its path was
started, the path is absent from the registry after the call. In the next
`Start` call, when the turn of that source comes with its path still absent
(which is so when no earlier source of the list has its path), `setupTailer`
is invoked for it again: a channel is requested, a tailer allocated, a cursor
looked up under the identifier of that tailer; and the tailer is the registry
entry of the path after the call if its `Start` returns no error. -/
theorem Start_retries_failed_source (env : Env) (l : Launcher) (w : World)
    (pre post : List LogSource) (source : LogSource)
    (hsplit : l.sources = pre ++ source :: post)
    (hatt : source ∈ attempted (World.since w (l.Start env w).2))
    (hnone : ∀ t ∈ started (World.since w (l.Start env w).2),
      t.config.Path ≠ source.Config.Path) :
    Registry.exists_ (l.Start env w).1.tailers source.Config.Path = false ∧
    ((∀ x ∈ pre, x.Config.Path ≠ source.Config.Path) →
      Registry.exists_ (startLoop env pre (l.Start env w).1.tailers (l.Start env w).2).1
        source.Config.Path = false) ∧
    (Registry.exists_ (startLoop env pre (l.Start env w).1.tailers (l.Start env w).2).1
        source.Config.Path = false →
      source ∈ attempted (World.since (l.Start env w).2
        ((l.Start env w).1.Start env (l.Start env w).2).2) ∧
      setupTailer.tailer env source
          (startLoop env pre (l.Start env w).1.tailers (l.Start env w).2).2
        ∈ created (World.since (l.Start env w).2
          ((l.Start env w).1.Start env (l.Start env w).2).2) ∧
      env.NextPipelineChan (startLoop env pre (l.Start env w).1.tailers (l.Start env w).2).2
        ∈ chanRequests (World.since (l.Start env w).2
          ((l.Start env w).1.Start env (l.Start env w).2).2) ∧
      env.Identifier (setupTailer.tailer env source
          (startLoop env pre (l.Start env w).1.tailers (l.Start env w).2).2)
        ∈ cursorLookups (World.since (l.Start env w).2
          ((l.Start env w).1.Start env (l.Start env w).2).2) ∧
      (setupTailer.err env source
          (startLoop env pre (l.Start env w).1.tailers (l.Start env w).2).2 = none →
        Registry.get? ((l.Start env w).1.Start env (l.Start env w).2).1.tailers
            source.Config.Path
          = some (setupTailer.tailer env source
              (startLoop env pre (l.Start env w).1.tailers (l.Start env w).2).2))) := by
  have hd := Start_delta env l w
  have habsent : Registry.exists_ (l.Start env w).1.tailers source.Config.Path = false := by
    obtain ⟨t, ht, hts⟩ := List.mem_map.mp hatt
    obtain ⟨_, hc, hf⟩ := hd.fresh t ht
    have hpath : t.config.Path = source.Config.Path := by
      rw [hc, hts]
      rfl
    have hreg := hd.registry
    simp only at hreg
    rw [hreg, Registry.exists_append, ← hpath, hf, Bool.false_or, Registry.exists_false_iff]
    intro hmem
    obtain ⟨e, he, hep⟩ := List.mem_map.mp hmem
    obtain ⟨t1, ht1, hte⟩ := List.mem_map.mp he
    apply hnone t1 ht1
    rw [← hpath, ← hep, ← hte]
    rfl
  refine ⟨habsent, ?_, ?_⟩
  · intro hpre
    obtain ⟨d1, h1⟩ := startLoop_delta env pre (l.Start env w).1.tailers (l.Start env w).2
    exact startDelta_absent h1 source.Config.Path habsent hpre
  · intro hex
    have hturn := startLoop_turn env pre post source (l.Start env w).1.tailers
      (l.Start env w).2 hex
    have hfin : ((l.Start env w).1.Start env (l.Start env w).2)
        = ({ (l.Start env w).1 with
              tailers := (startLoop env (pre ++ source :: post) (l.Start env w).1.tailers
                (l.Start env w).2).1 },
            (startLoop env (pre ++ source :: post) (l.Start env w).1.tailers
              (l.Start env w).2).2) := by
      simp only [Launcher.Start]
      rw [hsplit]
    rw [hfin]
    have hev := setupTailer_events_mem env source
      (startLoop env pre (l.Start env w).1.tailers (l.Start env w).2).2
    have hcr := created_of_mem _ _ (hturn.1 _ hev.2.1)
    refine ⟨?_, hcr, ?_, ?_, hturn.2⟩
    · exact List.mem_map.mpr ⟨_, hcr, rfl⟩
    · exact chanRequests_of_mem _ _ (hturn.1 _ hev.1)
    · exact cursorLookups_of_mem _ _ _ (hturn.1 _ hev.2.2)

theorem Start_retries_failed_source_witness :
    (New twinSources World.init).1.sources = [] ++ src "/var/log/a" "" :: [src "/var/log/a" "ssh"] ∧
    src "/var/log/a" "" ∈ attempted (World.since World.init
      ((New twinSources World.init).1.Start flakyEnv World.init).2) ∧
    (∀ t ∈ started (World.since World.init
        ((New twinSources World.init).1.Start flakyEnv World.init).2),
      t.config.Path ≠ (src "/var/log/a" "").Config.Path) ∧
    Registry.exists_ ((New twinSources World.init).1.Start flakyEnv World.init).1.tailers
      (src "/var/log/a" "").Config.Path = false ∧
    (Registry.get? (startTimes flakyEnv 2 (New twinSources World.init)).1.tailers
      "/var/log/a").isSome = true :=
  ⟨rfl, by decide, by decide,
    (Start_retries_failed_source flakyEnv (New twinSources World.init).1 World.init []
      [src "/var/log/a" "ssh"] (src "/var/log/a" "") rfl (by decide) (by decide)).1,
    by decide⟩

/-! ### The unit filter -/

theorem splitChars_ne_nil (sep : Char) (cs : List Char) : splitChars sep cs ≠ [] := by
  cases cs with
  | nil => simp [splitChars]
  | cons c rest =>
    simp only [splitChars]
    split
    · simp
    · split <;> simp

theorem splitChars_no_sep (sep : Char) (cs : List Char) :
    ∀ piece ∈ splitChars sep cs, sep ∉ piece := by
  induction cs with
  | nil => simp [splitChars]
  | cons c rest ih =>
    intro piece hp
    simp only [splitChars] at hp
    by_cases hc : c = sep
    · simp only [hc, if_true, List.mem_cons] at hp
      rcases hp with hp | hp
      · rw [hp]; simp
      · exact ih piece hp
    · simp only [hc, if_false] at hp
      cases hs : splitChars sep rest with
      | nil => exact absurd hs (splitChars_ne_nil sep rest)
      | cons first others =>
        rw [hs] at hp ih
        simp only [List.mem_cons] at hp
        rcases hp with hp | hp
        · rw [hp]
          intro hmem
          rcases List.mem_cons.mp hmem with h1 | h1
          · exact hc h1.symm
          · exact ih first (List.mem_cons_self _ _) h1
        · exact ih piece (List.mem_cons_of_mem _ hp)

theorem joinChars_cons (sep : List Char) (a : List Char) (rest : List (List Char))
    (h : rest ≠ []) : joinChars sep (a :: rest) = a ++ sep ++ joinChars sep rest := by
  cases rest with
  | nil => exact absurd rfl h
  | cons b more => rfl

theorem joinChars_splitChars (sep : Char) (cs : List Char) :
    joinChars [sep] (splitChars sep cs) = cs := by
  induction cs with
  | nil => rfl
  | cons c rest ih =>
    simp only [splitChars]
    by_cases hc : c = sep
    · simp only [hc, if_true]
      rw [joinChars_cons _ _ _ (splitChars_ne_nil sep rest), ih]
      rfl
    · simp only [hc, if_false]
      cases hs : splitChars sep rest with
      | nil => exact absurd hs (splitChars_ne_nil sep rest)
      | cons first others =>
        rw [hs] at ih
        simp only
        cases others with
        | nil =>
          simp only [joinChars] at ih ⊢
          rw [ih]
        | cons second more =>
          simp only [joinChars] at ih ⊢
          rw [← ih]
          simp

theorem splitChars_of_no_sep (sep : Char) (cs : List Char) (h : sep ∉ cs) :
    splitChars sep cs = [cs] := by
  induction cs with
  | nil => rfl
  | cons c rest ih =>
    have hc : ¬ c = sep := fun h1 => h (by rw [h1]; exact List.mem_cons_self _ _)
    have hr : sep ∉ rest := fun h1 => h (List.mem_cons_of_mem _ h1)
    simp [splitChars, hc, ih hr]

theorem Join_data (sep : String) (l : List String) :
    (Join l sep).data = joinChars sep.data (l.map String.data) := by
  induction l with
  | nil => rfl
  | cons a rest ih =>
    cases rest with
    | nil => rfl
    | cons b more =>
      simp only [Join, String.data_append, List.map_cons, joinChars] at ih ⊢
      rw [ih]

theorem Split_data (s : String) (sep : Char) :
    (Split s sep).map String.data = splitChars sep s.data := by
  simp [Split, List.map_map, Function.comp_def]

theorem Join_Split (s : String) (sep : Char) : Join (Split s sep) (String.singleton sep) = s := by
  apply String.ext
  rw [Join_data, Split_data]
  exact joinChars_splitChars sep s.data

/-- C13: unit filter. The `JournalConfig` that `setupTailer` passes to
`NewTailer` has the path of the source; its `Units` are empty when `Unit` is
the empty string, and otherwise the split of `Unit` on the comma: a non-empty
list whose elements contain no comma and whose join with the comma is `Unit`,
the one-element list of `Unit` when `Unit` has no comma; empty names are
kept, as in the split of `a,,b`. -/
theorem setupTailer_unit_filter (env : Env) (source : LogSource) (w : World) :
    (setupTailer.tailer env source w).config.Path = source.Config.Path ∧
    (source.Config.Unit = "" → (setupTailer.tailer env source w).config.Units = []) ∧
    (source.Config.Unit ≠ "" →
      (setupTailer.tailer env source w).config.Units = Split source.Config.Unit ',' ∧
      (setupTailer.tailer env source w).config.Units ≠ [] ∧
      (∀ u ∈ (setupTailer.tailer env source w).config.Units, ',' ∉ u.data) ∧
      Join (setupTailer.tailer env source w).config.Units "," = source.Config.Unit ∧
      (',' ∉ source.Config.Unit.data →
        (setupTailer.tailer env source w).config.Units = [source.Config.Unit])) ∧
    (setupTailer.tailer env (src "/var/log/a" "a,,b") w).config.Units = ["a", "", "b"] := by
  have hex : (journalConfig (src "/var/log/a" "a,,b")).Units = ["a", "", "b"] := by decide
  refine ⟨rfl, ?_, ?_, hex⟩
  · intro h
    simp [setupTailer.tailer, NewTailer, journalConfig, h]
  · intro h
    have hu : (setupTailer.tailer env source w).config.Units = Split source.Config.Unit ',' := by
      simp [setupTailer.tailer, NewTailer, journalConfig, h]
    rw [hu]
    refine ⟨rfl, ?_, ?_, Join_Split source.Config.Unit ',', ?_⟩
    · intro hnil
      have := congrArg (List.map String.data) hnil
      rw [Split_data] at this
      exact splitChars_ne_nil _ _ this
    · intro u hu2
      apply splitChars_no_sep ',' source.Config.Unit.data
      rw [← Split_data]
      exact List.mem_map_of_mem String.data hu2
    · intro hno
      simp [Split, splitChars_of_no_sep _ _ hno]

theorem setupTailer_unit_filter_witness :
    (src "/var/log/a" "ssh,cron").Config.Unit ≠ "" ∧
    (setupTailer.tailer pathEnv (src "/var/log/a" "ssh,cron") World.init).config.Units
      = ["ssh", "cron"] ∧
    Join (setupTailer.tailer pathEnv (src "/var/log/a" "ssh,cron") World.init).config.Units ","
      = "ssh,cron" ∧
    (setupTailer.tailer pathEnv (src "/var/log/a" "") World.init).config.Units = [] :=
  ⟨by decide, by decide,
    ((setupTailer_unit_filter pathEnv (src "/var/log/a" "ssh,cron") World.init).2.2.1
      (by decide)).2.2.2.1,
    (setupTailer_unit_filter pathEnv (src "/var/log/a" "") World.init).2.1 rfl⟩

/-! ### Partial failure on any list -/

/-- A tailer started by one round of the loop of `Start` is the tailer of the
source of the round, whose path was not registered and whose `Start` returned
no error. -/
theorem startBody_started (env : Env) (st : Registry × World) (source : LogSource) :
    ∀ t ∈ started (World.since st.2 (startBody env st source).2),
      Registry.exists_ st.1 source.Config.Path = false ∧
      setupTailer.err env source st.2 = none ∧
      t = setupTailer.tailer env source st.2 := by
  intro t ht
  rcases startBody_cases env st source with ⟨_, hb⟩ | ⟨_, e, he, hb⟩ | ⟨hex, he, hb⟩
  · rw [hb, World.since_self] at ht
    simp [started] at ht
  · rw [hb, World.since_of_trace _ _ _ rfl, started_append, started_events, he] at ht
    simp [started] at ht
  · rw [hb, World.since_of_trace _ _ _ rfl, started_events, he] at ht
    simp only [List.mem_singleton] at ht
    exact ⟨hex, he, ht⟩

theorem startLoop_snoc (env : Env) (init : List LogSource) (last : LogSource) (m : Registry)
    (w : World) :
    startLoop env (init ++ [last]) m w = startBody env (startLoop env init m w) last := by
  simp [startLoop]

/-- Every tailer started by the loop of `Start` is the tailer of a source of
the list, set up when the turn of the source came, with its path not
registered and its `Start` returning no error. -/
theorem startLoop_started_turn (env : Env) (srcs : List LogSource) (m : Registry) (w : World) :
    ∀ t ∈ started (World.since w (startLoop env srcs m w).2),
      ∃ (pre post : List LogSource) (source : LogSource),
        srcs = pre ++ source :: post ∧
        Registry.exists_ (startLoop env pre m w).1 source.Config.Path = false ∧
        setupTailer.err env source (startLoop env pre m w).2 = none ∧
        t = setupTailer.tailer env source (startLoop env pre m w).2 := by
  induction srcs using List.reverseRecOn with
  | nil =>
    intro t ht
    simp [startLoop, World.since_self, started] at ht
  | append_singleton init last ih =>
    intro t ht
    obtain ⟨d1, h1⟩ := startLoop_delta env init m w
    obtain ⟨d2, h2⟩ := startBody_delta env (startLoop env init m w) last
    rw [startLoop_snoc,
      since_trans w (startLoop env init m w).2 _ d1 d2 h1.trace h2.trace,
      started_append, List.mem_append] at ht
    rcases ht with ht | ht
    · obtain ⟨pre, post, source, hsplit, hex, herr, htl⟩ := ih t ht
      exact ⟨pre, post ++ [last], source, by rw [hsplit]; simp, hex, herr, htl⟩
    · obtain ⟨hex, herr, htl⟩ := startBody_started env (startLoop env init m w) last t ht
      exact ⟨init, [], last, rfl, hex, herr, htl⟩

/-- A path that is not registered when the turn of a source comes was not
registered when the loop of `Start` began. -/
theorem startLoop_absent_before (env : Env) (pre : List LogSource) (m : Registry) (w : World)
    (k : String) (h : Registry.exists_ (startLoop env pre m w).1 k = false) :
    Registry.exists_ m k = false := by
  obtain ⟨d, hd⟩ := startLoop_delta env pre m w
  rw [hd.registry, Registry.exists_append] at h
  exact (Bool.or_eq_false_iff.mp h).1

/-- The claim that the registry has no entry for the identifier of a source
whose set-up failed fails on a list in which another source has the same
path: the set-up of the first source of `/var/log/p` fails, the set-up of the
source of `/var/log/q` succeeds and its tailer is registered, yet the second
source of `/var/log/p` is set up and registered under `/var/log/p`. -/
theorem Start_registers_twin_of_failed :
    (src "/var/log/p" "").Config.Path ≠ (src "/var/log/q" "").Config.Path ∧
    setupTailer.err firstFailsEnv (src "/var/log/p" "") World.init = some "journal busy" ∧
    src "/var/log/p" "" ∈ attempted
      ((New tripleSources World.init).1.Start firstFailsEnv World.init).2.trace ∧
    (∀ t ∈ started ((New tripleSources World.init).1.Start firstFailsEnv World.init).2.trace,
      t.source ≠ src "/var/log/p" "") ∧
    (∃ t ∈ started ((New tripleSources World.init).1.Start firstFailsEnv World.init).2.trace,
      t.source = src "/var/log/q" "" ∧
      Registry.get? ((New tripleSources World.init).1.Start firstFailsEnv World.init).1.tailers
        "/var/log/q" = some t) ∧
    Registry.exists_ ((New tripleSources World.init).1.Start firstFailsEnv World.init).1.tailers
      (src "/var/log/p" "").Config.Path = true := by
  decide

/-- C5 (amended): partial-failure isolation. For owned sources `A` and `B`
with distinct paths, anywhere in the list: when the turn of `A` comes with
its path not registered and the set-up of every owned source of the path of
`A`, `A` included, fails, and the turn of `B` comes with its path not
registered and its set-up succeeds, then after `Start` the registry has the
tailer of `B` under the path of `B` and no entry for the path of `A`. And a
source whose set-up fails is followed by the loop over the remaining
sources, the registry unchanged. -/
theorem Start_isolates_failure (env : Env) (l : Launcher) (w : World) (A B : LogSource)
    (preA postA preB postB : List LogSource)
    (hAB : A.Config.Path ≠ B.Config.Path)
    (hsplitA : l.sources = preA ++ A :: postA)
    (hturnA : Registry.exists_ (startLoop env preA l.tailers w).1 A.Config.Path = false)
    (hfail : ∀ (pre post : List LogSource) (source : LogSource),
      l.sources = pre ++ source :: post → source.Config.Path = A.Config.Path →
      setupTailer.err env source (startLoop env pre l.tailers w).2 ≠ none)
    (hsplitB : l.sources = preB ++ B :: postB)
    (hturnB : Registry.exists_ (startLoop env preB l.tailers w).1 B.Config.Path = false)
    (hok : setupTailer.err env B (startLoop env preB l.tailers w).2 = none) :
    Registry.get? (l.Start env w).1.tailers B.Config.Path
      = some (setupTailer.tailer env B (startLoop env preB l.tailers w).2) ∧
    (setupTailer.tailer env B (startLoop env preB l.tailers w).2).source = B ∧
    Registry.exists_ (l.Start env w).1.tailers A.Config.Path = false ∧
    A.Config.Path ≠ B.Config.Path ∧
    setupTailer.err env A (startLoop env preA l.tailers w).2 ≠ none ∧
    (∀ (pre post : List LogSource) (source : LogSource) (e : String),
      l.sources = pre ++ source :: post →
      Registry.exists_ (startLoop env pre l.tailers w).1 source.Config.Path = false →
      (setupTailer env source (startLoop env pre l.tailers w).2).1 = Except.error e →
      startLoop env l.sources l.tailers w
        = startLoop env post (startLoop env pre l.tailers w).1
            ((setupTailer env source (startLoop env pre l.tailers w).2).2.record
              (Event.logWarn e))) := by
  refine ⟨?_, rfl, ?_, hAB, hfail preA postA A hsplitA rfl, ?_⟩
  · have := (startLoop_turn env preB postB B l.tailers w hturnB).2 hok
    simp only [Launcher.Start]
    rw [hsplitB]
    exact this
  · have hd := Start_delta env l w
    have hreg := hd.registry
    simp only at hreg
    rw [hreg, Registry.exists_append,
      startLoop_absent_before env preA l.tailers w _ hturnA, Bool.false_or,
      Registry.exists_false_iff]
    intro hmem
    obtain ⟨e, he, hep⟩ := List.mem_map.mp hmem
    obtain ⟨t, ht, hte⟩ := List.mem_map.mp he
    obtain ⟨pre, post, source, hsplit, _, herr, htl⟩ :=
      startLoop_started_turn env l.sources l.tailers w t ht
    apply hfail pre post source hsplit ?_ herr
    rw [← hep, ← hte, htl]
    rfl
  · intro pre post source e hsplit hex herr
    rw [hsplit, startLoop_append, startLoop_cons,
      startBody_of_error env (startLoop env pre l.tailers w) source e hex herr]

theorem Start_isolates_failure_witness :
    badSource.Config.Path ≠ goodSource.Config.Path ∧
    (New [goodSource, badSource, src "/var/log/bad" "ssh"] World.init).1.sources
      = [goodSource] ++ badSource :: [src "/var/log/bad" "ssh"] ∧
    setupTailer.err pathEnv badSource
      (startLoop pathEnv [goodSource] [] World.init).2 = some "cannot open" ∧
    (Registry.get?
      ((New [goodSource, badSource, src "/var/log/bad" "ssh"] World.init).1.Start pathEnv
        World.init).1.tailers goodSource.Config.Path).isSome = true ∧
    Registry.exists_
      ((New [goodSource, badSource, src "/var/log/bad" "ssh"] World.init).1.Start pathEnv
        World.init).1.tailers badSource.Config.Path = false :=
  ⟨by decide, by decide, by decide, by decide,
    (Start_isolates_failure pathEnv
      (New [goodSource, badSource, src "/var/log/bad" "ssh"] World.init).1 World.init
      badSource goodSource [goodSource] [src "/var/log/bad" "ssh"] []
      [badSource, src "/var/log/bad" "ssh"] (by decide) (by decide) (by decide)
      (by
        intro pre post source _ hpath
        have hp : source.Config.Path = "/var/log/bad" := hpath
        simp [setupTailer.err, pathEnv, setupTailer.tailer, NewTailer, journalConfig, hp])
      (by decide) (by decide) (by decide)).2.2.1⟩

end Journald

namespace Providers

/-! ## `buildTemplates` -/

theorem foldl_append_singleton {α β : Type} (f : α → β) (l : List α) (acc : List β) :
    l.foldl (fun templates idx => templates ++ [f idx]) acc = acc ++ l.map f := by
  induction l generalizing acc with
  | nil => simp
  | cons a rest ih => simp [List.foldl_cons, ih]

theorem buildTemplates_of_lengths (key : String) (checkNames : List String)
    (initConfigs instances : List Data) (h1 : checkNames.length = initConfigs.length)
    (h2 : checkNames.length = instances.length) :
    buildTemplates key checkNames initConfigs instances
      = (List.range checkNames.length).map (templateAt key checkNames initConfigs instances) := by
  unfold buildTemplates
  rw [if_neg (by simp [h1.symm, h2.symm]), foldl_append_singleton]
  simp

theorem buildTemplates_of_mismatch (key : String) (checkNames : List String)
    (initConfigs instances : List Data)
    (h : checkNames.length ≠ initConfigs.length ∨ checkNames.length ≠ instances.length) :
    buildTemplates key checkNames initConfigs instances = [] := by
  unfold buildTemplates
  rw [if_pos h]

/-- C14: `buildTemplates`. When the three lists do not all have the same
length the result is empty. Otherwise the result has one template per check
name and, at every index `i`, the template has the name `checkNames[i]`, the
init config `initConfigs[i]`, the one instance `instances[i]` and the one
identifier `key`. -/
theorem buildTemplates_spec (key : String) (checkNames : List String)
    (initConfigs instances : List Data) :
    ((checkNames.length ≠ initConfigs.length ∨ checkNames.length ≠ instances.length) →
      buildTemplates key checkNames initConfigs instances = []) ∧
    ((checkNames.length = initConfigs.length ∧ checkNames.length = instances.length) →
      (buildTemplates key checkNames initConfigs instances).length = checkNames.length ∧
      ∀ i : Nat, i < checkNames.length →
        ∃ t : Config, (buildTemplates key checkNames initConfigs instances)[i]? = some t ∧
          checkNames[i]? = some t.Name ∧
          initConfigs[i]? = some t.InitConfig ∧
          (instances[i]?).map (fun x => [x]) = some t.Instances ∧
          t.ADIdentifiers = [key]) := by
  refine ⟨buildTemplates_of_mismatch key checkNames initConfigs instances, ?_⟩
  rintro ⟨h1, h2⟩
  rw [buildTemplates_of_lengths key checkNames initConfigs instances h1 h2]
  refine ⟨by simp, ?_⟩
  intro i hi
  refine ⟨templateAt key checkNames initConfigs instances i, ?_, ?_, ?_, ?_, rfl⟩
  · simp [hi]
  · simp [templateAt, List.getD, hi]
  · have : i < initConfigs.length := h1 ▸ hi
    simp [templateAt, List.getD, this]
  · have : i < instances.length := h2 ▸ hi
    simp [templateAt, List.getD, this]

theorem buildTemplates_spec_witness :
    buildTemplates "docker://abc" ["redis", "nginx"] ["a", "b"] ["x"] = [] ∧
    buildTemplates "docker://abc" ["redis", "nginx"] ["a", "b"] ["x", "y"]
      = [{ Name := "redis", InitConfig := "a", Instances := ["x"],
           ADIdentifiers := ["docker://abc"] },
         { Name := "nginx", InitConfig := "b", Instances := ["y"],
           ADIdentifiers := ["docker://abc"] }] ∧
    (buildTemplates "docker://abc" ["redis", "nginx"] ["a", "b"] ["x", "y"]).length = 2 :=
  ⟨(buildTemplates_spec "docker://abc" ["redis", "nginx"] ["a", "b"] ["x"]).1 (by decide),
    by decide,
    ((buildTemplates_spec "docker://abc" ["redis", "nginx"] ["a", "b"] ["x", "y"]).2
      ⟨by decide, by decide⟩).1⟩

/-! ## `parseJSONValue` -/

theorem parseLoop_objects (lib : JsonLib) (rawRes : List Json) (result : List Data)
    (h : ∀ r ∈ rawRes, r.isObject = true) :
    parseJSONValue.loop lib rawRes result = (result ++ rawRes.map lib.Marshal, none) := by
  induction rawRes generalizing result with
  | nil => simp [parseJSONValue.loop]
  | cons r rest ih =>
    have hr := h r (List.mem_cons_self _ _)
    have hrest := ih (result ++ [lib.Marshal r]) (fun x hx => h x (List.mem_cons_of_mem _ hx))
    cases r <;> simp [Json.isObject] at hr
    simp [parseJSONValue.loop, hrest]

theorem parseLoop_error_nil (lib : JsonLib) (rawRes : List Json) (result : List Data)
    (h : (parseJSONValue.loop lib rawRes result).2 ≠ none) :
    (parseJSONValue.loop lib rawRes result).1 = [] := by
  induction rawRes generalizing result with
  | nil => simp [parseJSONValue.loop] at h
  | cons r rest ih =>
    cases r <;> simp only [parseJSONValue.loop] at h ⊢
    exact ih _ h

theorem parseLoop_non_object (lib : JsonLib) (rawRes : List Json) (result : List Data)
    (h : ∃ r ∈ rawRes, r.isObject = false) :
    (parseJSONValue.loop lib rawRes result).1 = [] ∧
    (parseJSONValue.loop lib rawRes result).2 ≠ none := by
  induction rawRes generalizing result with
  | nil =>
    obtain ⟨r, hr, _⟩ := h
    simp at hr
  | cons r rest ih =>
    obtain ⟨x, hx, hxo⟩ := h
    cases r with
    | object fields =>
      simp only [parseJSONValue.loop]
      apply ih
      rcases List.mem_cons.mp hx with h1 | h1
      · rw [h1] at hxo
        simp [Json.isObject] at hxo
      · exact ⟨x, h1, hxo⟩
    | null => simp [parseJSONValue.loop]
    | bool b => simp [parseJSONValue.loop]
    | number literal => simp [parseJSONValue.loop]
    | string str => simp [parseJSONValue.loop]
    | array elems => simp [parseJSONValue.loop]

theorem parseJSONValue_error_nil (lib : JsonLib) (value : String)
    (h : (parseJSONValue lib value).2 ≠ none) : (parseJSONValue lib value).1 = [] := by
  unfold parseJSONValue at h ⊢
  by_cases hv : value = ""
  · simp [hv]
  · simp only [hv, if_false] at h ⊢
    cases hu : lib.UnmarshalValues value with
    | error err => simp
    | ok rawRes =>
      rw [hu] at h
      exact parseLoop_error_nil lib rawRes [] h

/-- The claim that `parseJSONValue` fails on every value that is not a JSON
array fails on the literal `null`: `json.Unmarshal` accepts it for a slice,
which it leaves nil, and `parseJSONValue` returns an empty result and a nil
error. -/
theorem parseJSONValue_accepts_null :
    "null" ≠ "" ∧
    parseJSONValue toyJson "null" = ([], none) ∧
    (parseJSONValue toyJson "null").2 = none := by
  decide

/-- C15 (amended): `parseJSONValue`. It fails, with an error and an empty
result, on the empty string, when `json.Unmarshal` of the value into a slice
returns an error, and when one of the decoded values is not an object; when
it fails the result is always empty. When `json.Unmarshal` returns no error
and every decoded value is an object it succeeds, and the result is the
`json.Marshal` encoding of each value, in the order of the array; so it
succeeds with an empty result on every value for which `json.Unmarshal`
leaves the slice empty, the empty array and the literal `null` alike. -/
theorem parseJSONValue_spec (lib : JsonLib) (value : String) :
    parseJSONValue lib "" = ([], some "Value is empty") ∧
    (∀ err : String, value ≠ "" → lib.UnmarshalValues value = Except.error err →
      parseJSONValue lib value = ([], some ("Failed to unmarshal JSON: " ++ err))) ∧
    (∀ rawRes : List Json, value ≠ "" → lib.UnmarshalValues value = Except.ok rawRes →
      ((∀ r ∈ rawRes, r.isObject = true) →
        parseJSONValue lib value = (rawRes.map lib.Marshal, none) ∧
        (parseJSONValue lib value).1.length = rawRes.length) ∧
      ((∃ r ∈ rawRes, r.isObject = false) →
        (parseJSONValue lib value).1 = [] ∧ (parseJSONValue lib value).2 ≠ none)) ∧
    (value ≠ "" → lib.UnmarshalValues value = Except.ok [] →
      parseJSONValue lib value = ([], none)) ∧
    ((parseJSONValue lib value).2 ≠ none → (parseJSONValue lib value).1 = []) := by
  refine ⟨by simp [parseJSONValue], ?_, ?_, ?_, parseJSONValue_error_nil lib value⟩
  · intro err hv hu
    simp [parseJSONValue, hv, hu]
  · intro rawRes hv hu
    have hp : parseJSONValue lib value = parseJSONValue.loop lib rawRes [] := by
      simp [parseJSONValue, hv, hu]
    rw [hp]
    refine ⟨?_, parseLoop_non_object lib rawRes []⟩
    intro hobj
    rw [parseLoop_objects lib rawRes [] hobj]
    simp
  · intro hv hu
    simp [parseJSONValue, hv, hu, parseJSONValue.loop]

theorem parseJSONValue_spec_witness :
    parseJSONValue toyJson "[\x7b\x7d,\x7b\x7d]" = (["\x7b\x7d", "\x7b\x7d"], none) ∧
    parseJSONValue toyJson "[\x7b\x7d,1]"
      = ([], some "found non JSON object type, value is: '1'") ∧
    parseJSONValue toyJson "["
      = ([], some "Failed to unmarshal JSON: unexpected end of JSON input") ∧
    parseJSONValue toyJson "\x7b\x7d"
      = ([], some ("Failed to unmarshal JSON: "
          ++ "json: cannot unmarshal object into Go value of type []interface \x7b\x7d")) ∧
    parseJSONValue toyJson "[]" = ([], none) ∧
    (parseJSONValue toyJson "[\x7b\x7d,1]").1 = [] :=
  ⟨((parseJSONValue_spec toyJson "[\x7b\x7d,\x7b\x7d]").2.2.1
      [Json.object [], Json.object []] (by decide) rfl).1
      (by intro r hr; simp at hr; rw [hr]; rfl) |>.1,
    by decide,
    (parseJSONValue_spec toyJson "[").2.1 "unexpected end of JSON input" (by decide) rfl,
    (parseJSONValue_spec toyJson "\x7b\x7d").2.1
      "json: cannot unmarshal object into Go value of type []interface \x7b\x7d"
      (by decide) rfl,
    (parseJSONValue_spec toyJson "[]").2.2.2.1 (by decide) rfl,
    (parseJSONValue_spec toyJson "[\x7b\x7d,1]").2.2.2.2 (by decide)⟩

/-! ## `extractTemplatesFromMap` -/

theorem extract_of_no_check_names (lib : JsonLib) (key : String) (input : String → Option String)
    (pfx : String) (h : input (pfx ++ checkNamePath) = none) :
    extractTemplatesFromMap lib key input pfx = ([], none) := by
  simp [extractTemplatesFromMap, h]

theorem extract_of_no_init_configs (lib : JsonLib) (key : String)
    (input : String → Option String) (pfx : String) (v1 : String) (checkNames : List String)
    (h1 : input (pfx ++ checkNamePath) = some v1)
    (hn : parseCheckNames lib v1 = (checkNames, none))
    (h2 : input (pfx ++ initConfigPath) = none) :
    extractTemplatesFromMap lib key input pfx = ([], some "missing init_configs key") := by
  simp [extractTemplatesFromMap, h1, hn, h2]

theorem extract_of_no_instances (lib : JsonLib) (key : String)
    (input : String → Option String) (pfx : String) (v1 v2 : String) (checkNames : List String)
    (initConfigs : List Data)
    (h1 : input (pfx ++ checkNamePath) = some v1)
    (hn : parseCheckNames lib v1 = (checkNames, none))
    (h2 : input (pfx ++ initConfigPath) = some v2)
    (hi : parseJSONValue lib v2 = (initConfigs, none))
    (h3 : input (pfx ++ instancePath) = none) :
    extractTemplatesFromMap lib key input pfx = ([], some "missing instances key") := by
  simp [extractTemplatesFromMap, h1, hn, h2, hi, h3]

theorem extract_of_all (lib : JsonLib) (key : String)
    (input : String → Option String) (pfx : String) (v1 v2 v3 : String)
    (checkNames : List String) (initConfigs instances : List Data)
    (h1 : input (pfx ++ checkNamePath) = some v1)
    (hn : parseCheckNames lib v1 = (checkNames, none))
    (h2 : input (pfx ++ initConfigPath) = some v2)
    (hi : parseJSONValue lib v2 = (initConfigs, none))
    (h3 : input (pfx ++ instancePath) = some v3)
    (hs : parseJSONValue lib v3 = (instances, none)) :
    extractTemplatesFromMap lib key input pfx
      = (buildTemplates key checkNames initConfigs instances, none) := by
  simp [extractTemplatesFromMap, h1, hn, h2, hi, h3, hs]

theorem extract_error_nil (lib : JsonLib) (key : String) (input : String → Option String)
    (pfx : String) (h : (extractTemplatesFromMap lib key input pfx).2 ≠ none) :
    (extractTemplatesFromMap lib key input pfx).1 = [] := by
  unfold extractTemplatesFromMap at h ⊢
  cases h1 : input (pfx ++ checkNamePath) with
  | none => simp
  | some v1 =>
    rw [h1] at h
    simp only at h ⊢
    rcases hn : parseCheckNames lib v1 with ⟨checkNames, e1⟩
    rw [hn] at h
    cases e1 with
    | some err => simp
    | none =>
      simp only at h ⊢
      cases h2 : input (pfx ++ initConfigPath) with
      | none => simp
      | some v2 =>
        rw [h2] at h
        simp only at h ⊢
        rcases hi : parseJSONValue lib v2 with ⟨initConfigs, e2⟩
        rw [hi] at h
        cases e2 with
        | some err => simp
        | none =>
          simp only at h ⊢
          cases h3 : input (pfx ++ instancePath) with
          | none => simp
          | some v3 =>
            rw [h3] at h
            simp only at h ⊢
            rcases hs : parseJSONValue lib v3 with ⟨instances, e3⟩
            rw [hs] at h
            cases e3 with
            | some err => simp
            | none => simp at h

/-- C16: `extractTemplatesFromMap` reads the keys `prefix+"check_names"`,
`prefix+"init_configs"` and `prefix+"instances"`. When the first is not a key
of the map the result is the empty list and a nil error, whatever else the
map holds. When the three keys are present and their values parse, the
result is `buildTemplates` of the three parsed lists and a nil error. -/
theorem extractTemplatesFromMap_spec (lib : JsonLib) (key : String)
    (input : String → Option String) (pfx : String) :
    (checkNamePath = "check_names" ∧ initConfigPath = "init_configs" ∧
      instancePath = "instances") ∧
    (input (pfx ++ "check_names") = none →
      extractTemplatesFromMap lib key input pfx = ([], none)) ∧
    (∀ (v1 v2 v3 : String) (checkNames : List String) (initConfigs instances : List Data),
      input (pfx ++ "check_names") = some v1 →
      parseCheckNames lib v1 = (checkNames, none) →
      input (pfx ++ "init_configs") = some v2 →
      parseJSONValue lib v2 = (initConfigs, none) →
      input (pfx ++ "instances") = some v3 →
      parseJSONValue lib v3 = (instances, none) →
      extractTemplatesFromMap lib key input pfx
        = (buildTemplates key checkNames initConfigs instances, none)) := by
  refine ⟨⟨rfl, rfl, rfl⟩, ?_, ?_⟩
  · intro h
    exact extract_of_no_check_names lib key input pfx h
  · intro v1 v2 v3 checkNames initConfigs instances h1 hn h2 hi h3 hs
    exact extract_of_all lib key input pfx v1 v2 v3 checkNames initConfigs instances
      h1 hn h2 hi h3 hs

theorem extractTemplatesFromMap_spec_witness :
    extractTemplatesFromMap toyJson "docker://abc" exampleLabels "io.other." = ([], none) ∧
    extractTemplatesFromMap toyJson "docker://abc" exampleLabels "com.datadoghq.ad."
      = ([{ Name := "redis", InitConfig := "\x7b\x7d", Instances := ["\x7b\x7d"],
            ADIdentifiers := ["docker://abc"] }], none) :=
  ⟨(extractTemplatesFromMap_spec toyJson "docker://abc" exampleLabels "io.other.").2.1
      (by decide),
    by
      rw [(extractTemplatesFromMap_spec toyJson "docker://abc" exampleLabels
        "com.datadoghq.ad.").2.2 "[\"redis\"]" "[\x7b\x7d]" "[\x7b\x7d]" ["redis"]
        ["\x7b\x7d"] ["\x7b\x7d"] (by decide) (by decide) (by decide) (by decide)
        (by decide) (by decide)]
      decide⟩

/-- C17: the error contract of `extractTemplatesFromMap`. Whenever the error
is not nil the list is empty. With `prefix+"check_names"` present and parsed,
a missing `prefix+"init_configs"` gives the error `missing init_configs key`;
with `init_configs` present and parsed too, a missing `prefix+"instances"`
gives the error `missing instances key`. When the three values parse into
lists that do not all have the same length, the result is the empty list and
a nil error. -/
theorem extractTemplatesFromMap_errors (lib : JsonLib) (key : String)
    (input : String → Option String) (pfx : String) :
    ((extractTemplatesFromMap lib key input pfx).2 ≠ none →
      (extractTemplatesFromMap lib key input pfx).1 = []) ∧
    (∀ (v1 : String) (checkNames : List String),
      input (pfx ++ "check_names") = some v1 →
      parseCheckNames lib v1 = (checkNames, none) →
      input (pfx ++ "init_configs") = none →
      extractTemplatesFromMap lib key input pfx = ([], some "missing init_configs key")) ∧
    (∀ (v1 v2 : String) (checkNames : List String) (initConfigs : List Data),
      input (pfx ++ "check_names") = some v1 →
      parseCheckNames lib v1 = (checkNames, none) →
      input (pfx ++ "init_configs") = some v2 →
      parseJSONValue lib v2 = (initConfigs, none) →
      input (pfx ++ "instances") = none →
      extractTemplatesFromMap lib key input pfx = ([], some "missing instances key")) ∧
    (∀ (v1 v2 v3 : String) (checkNames : List String) (initConfigs instances : List Data),
      input (pfx ++ "check_names") = some v1 →
      parseCheckNames lib v1 = (checkNames, none) →
      input (pfx ++ "init_configs") = some v2 →
      parseJSONValue lib v2 = (initConfigs, none) →
      input (pfx ++ "instances") = some v3 →
      parseJSONValue lib v3 = (instances, none) →
      (checkNames.length ≠ initConfigs.length ∨ checkNames.length ≠ instances.length) →
      extractTemplatesFromMap lib key input pfx = ([], none)) := by
  refine ⟨extract_error_nil lib key input pfx, ?_, ?_, ?_⟩
  · intro v1 checkNames h1 hn h2
    exact extract_of_no_init_configs lib key input pfx v1 checkNames h1 hn h2
  · intro v1 v2 checkNames initConfigs h1 hn h2 hi h3
    exact extract_of_no_instances lib key input pfx v1 v2 checkNames initConfigs h1 hn h2 hi h3
  · intro v1 v2 v3 checkNames initConfigs instances h1 hn h2 hi h3 hs hlen
    rw [extract_of_all lib key input pfx v1 v2 v3 checkNames initConfigs instances
      h1 hn h2 hi h3 hs, buildTemplates_of_mismatch key checkNames initConfigs instances hlen]

theorem extractTemplatesFromMap_errors_witness :
    extractTemplatesFromMap toyJson "k" (mapOf [("ad.check_names", "[\"redis\"]")]) "ad."
      = ([], some "missing init_configs key") ∧
    extractTemplatesFromMap toyJson "k"
        (mapOf [("ad.check_names", "[\"redis\"]"), ("ad.init_configs", "[\x7b\x7d]")]) "ad."
      = ([], some "missing instances key") ∧
    extractTemplatesFromMap toyJson "k"
        (mapOf [("ad.check_names", "[\"redis\",\"nginx\"]"),
          ("ad.init_configs", "[\x7b\x7d,\x7b\x7d]"), ("ad.instances", "[\x7b\x7d]")]) "ad."
      = ([], none) ∧
    (extractTemplatesFromMap toyJson "k"
        (mapOf [("ad.check_names", "[\"redis\"]"), ("ad.init_configs", "[\x7b\x7d,1]")])
        "ad.").1 = [] :=
  ⟨(extractTemplatesFromMap_errors toyJson "k" (mapOf [("ad.check_names", "[\"redis\"]")])
      "ad.").2.1 "[\"redis\"]" ["redis"] (by decide) (by decide) (by decide),
    (extractTemplatesFromMap_errors toyJson "k"
      (mapOf [("ad.check_names", "[\"redis\"]"), ("ad.init_configs", "[\x7b\x7d]")])
      "ad.").2.2.1 "[\"redis\"]" "[\x7b\x7d]" ["redis"] ["\x7b\x7d"]
      (by decide) (by decide) (by decide) (by decide) (by decide),
    (extractTemplatesFromMap_errors toyJson "k"
      (mapOf [("ad.check_names", "[\"redis\",\"nginx\"]"),
        ("ad.init_configs", "[\x7b\x7d,\x7b\x7d]"), ("ad.instances", "[\x7b\x7d]")])
      "ad.").2.2.2 "[\"redis\",\"nginx\"]" "[\x7b\x7d,\x7b\x7d]" "[\x7b\x7d]"
      ["redis", "nginx"] ["\x7b\x7d", "\x7b\x7d"] ["\x7b\x7d"]
      (by decide) (by decide) (by decide) (by decide) (by decide) (by decide) (by decide),
    (extractTemplatesFromMap_errors toyJson "k"
      (mapOf [("ad.check_names", "[\"redis\"]"), ("ad.init_configs", "[\x7b\x7d,1]")])
      "ad.").1 (by decide)⟩

end Providers
